import Mathlib

/-!
Verified model of the PFS datamodel serialization and identity layer.

Shallow embedding of `src/python/pfs/datamodel/pfsFiberProfiles.py` and
`src/python/pfs/datamodel/drp.py`:

* `CalibIdentity` and the `PfsFiberProfiles` container with its
  construction-time validation (`validate`, a sequence of Python `assert`
  statements, all raising the same `AssertionError`);
* the FITS persistence pair `_writeImpl` / `_readImpl`, with the FITS binary
  tables modelled as lists of rows (fixed-width columns as scalars,
  variable-length `PE()`/`PL()` columns as lists) and the numpy
  masked-array reconstruction modelled with the documented numpy
  shape-compatibility rules;
* the filename grammars of the six product classes, with each
  `filenameRegex` of the source translated into an explicit matcher and each
  `filenameFormat` into an explicit renderer.

Numeric table values are modelled as exact rationals: the width of the FITS
floating-point storage is outside the scope of the packing logic studied here.
-/

set_option maxHeartbeats 1000000

namespace PfsDatamodel

/-- Python exception kinds raised by the modelled code paths. -/
inductive PyError
  | assertionError
  | attributeError (name : String)
  | runtimeError
  | parseError
  | valueError
  | maskError
  | ioError
  deriving DecidableEq

/-- `CalibIdentity` (pfsFiberProfiles.py): four keywords; the constructor
coerces `spectrograph` and `visit0` with `int()`, so they are integers. -/
structure CalibIdentity where
  obsDate : String
  spectrograph : Int
  arm : String
  visit0 : Int
  deriving DecidableEq

/-- The attribute names a `CalibIdentity` instance exposes: the four fields
set in `__init__`, the class attribute `elements`, and the methods defined in
the class body (`fromDict`, `toDict`).  There is no `getDict`. -/
def CalibIdentity.attrNames : List String :=
  ["obsDate", "spectrograph", "arm", "visit0", "elements", "fromDict", "toDict"]

/-- A scalar header/metadata value (keyword-value pairs of POD types). -/
inductive PODValue
  | s (v : String)
  | i (v : Int)
  | f (v : Rat)
  | b (v : Bool)
  deriving DecidableEq

abbrev Metadata := List (String × PODValue)

/-- Decidable equality of modelled call results. -/
instance exceptDecidableEq {ε α : Type} [DecidableEq ε] [DecidableEq α] :
    DecidableEq (Except ε α)
  | .error a, .error b =>
    if h : a = b then .isTrue (by rw [h]) else
      .isFalse (fun hh => by cases hh; exact h rfl)
  | .error _, .ok _ => .isFalse (fun hh => by cases hh)
  | .ok _, .error _ => .isFalse (fun hh => by cases hh)
  | .ok a, .ok b =>
    if h : a = b then .isTrue (by rw [h]) else
      .isFalse (fun hh => by cases hh; exact h rfl)

/-- One per-fiber profile stack: the rows of the `(M, P)` data matrix,
together with the numpy mask — `none` models `numpy.ma.nomask` (a plain
array wrapped by `np.ma.masked_array`), `some` an explicit boolean mask of
the same shape. -/
structure MaskedMatrix where
  data : List (List Rat)
  mask : Option (List (List Bool))
  deriving DecidableEq

/-- The required length of each profile row of a fiber:
`int(2*(radius + 1)*oversample) + 1` (pfsFiberProfiles.py line 131).
The product `2*(radius+1)*oversample` equals the exact rational
`(2*(radius+1)*samp.num) / samp.den`, and Python `int()` truncates toward
zero, which on that quotient is `Int.tdiv` (the denominator is positive). -/
def profileWidth (rad : Int) (samp : Rat) : Int :=
  Int.tdiv (2 * (rad + 1) * samp.num) (samp.den : Int) + 1

/-- The body of `PfsFiberProfiles.validate` (lines 122-132): one boolean per
`assert` statement, in source order.  `self.length` is `len(fiberId)`, and
the shape asserts on the three 1-D numpy arrays amount to length checks. -/
def validateArgs (fiberId : List Int) (radius : List Int) (oversample : List Rat)
    (rows : List (List Rat)) (profiles : List MaskedMatrix)
    (norm : List (List Rat)) : Bool :=
  radius.length == fiberId.length &&
  oversample.length == fiberId.length &&
  rows.length == fiberId.length &&
  profiles.length == fiberId.length &&
  ((rows.zip profiles).all fun q => q.1.length == q.2.data.length) &&
  ((profiles.zip (radius.zip oversample)).all fun q =>
    q.1.data.all fun row => (row.length : Int) == profileWidth q.2.1 q.2.2) &&
  norm.length == fiberId.length

/-- The in-memory `PfsFiberProfiles` object after a successful construction. -/
structure PfsFiberProfilesData where
  identity : CalibIdentity
  fiberId : List Int
  radius : List Int
  oversample : List Rat
  rows : List (List Rat)
  profiles : List MaskedMatrix
  norm : List (List Rat)
  metadata : Metadata
  deriving DecidableEq

/-- `validate` as a method of the constructed object. -/
def PfsFiberProfilesData.validateOk (p : PfsFiberProfilesData) : Bool :=
  validateArgs p.fiberId p.radius p.oversample p.rows p.profiles p.norm

/-- `PfsFiberProfiles.__init__`: store the arrays and run `validate`; any
failing `assert` raises `AssertionError`. -/
def mkPfsFiberProfiles (identity : CalibIdentity) (fiberId : List Int)
    (radius : List Int) (oversample : List Rat) (rows : List (List Rat))
    (profiles : List MaskedMatrix) (norm : List (List Rat))
    (metadata : Metadata) : Except PyError PfsFiberProfilesData :=
  if validateArgs fiberId radius oversample rows profiles norm then
    .ok ⟨identity, fiberId, radius, oversample, rows, profiles, norm, metadata⟩
  else
    .error .assertionError

/-! ## Header codec

`astropyHeaderToDict` / `astropyHeaderFromDict` live in
`pfs/datamodel/utils.py`, which is not part of the sources provided; they are
modelled from the spec (section 4.2). -/

/-- ASCII uppercase of one character (FITS keywords are ASCII). -/
def upperChar (c : Char) : Char :=
  if 'a' ≤ c ∧ c ≤ 'z' then Char.ofNat (c.toNat - 32) else c

/-- ASCII uppercase of a keyword. -/
def upperKey (s : String) : String :=
  String.mk (s.toList.map upperChar)

/-- Modelled from the spec: `astropyHeaderFromDict` (pfs.datamodel.utils,
missing from src).  "Keywords are uppercased on emit"; values pass through. -/
def astropyHeaderFromDict (m : Metadata) : Metadata :=
  m.map fun kv => (upperKey kv.1, kv.2)

/-- Modelled from the spec: `astropyHeaderToDict` (pfs.datamodel.utils,
missing from src).  "Unknown keys are preserved on read"; the keyword-value
pairs of the header are returned as a mapping. -/
def astropyHeaderToDict (h : Metadata) : Metadata := h

/-- `header[key] = value` on an astropy header: replace the existing card,
else append a new one. -/
def headerSet (h : Metadata) (key : String) (v : PODValue) : Metadata :=
  if h.any fun kv => kv.1 == key then
    h.map fun kv => if kv.1 == key then (key, v) else kv
  else
    h ++ [(key, v)]

/-! ## The FITS container produced by `_writeImpl`

Modelled per the binary-table codec (spec section 4.3): an extension is a
bag of named columns; a fixed-width column is a list of scalars, a
variable-length (`PE()`/`PL()`) column a list of lists, one entry per table
row, in row order. -/

/-- The FITS file layout of a `PfsFiberProfiles`: primary header plus the
`FIBERS` (`fib…`, one row per fiber) and `PROFILES` (`prof…`, one row per
profile) binary tables. -/
structure FitsFile where
  header : Metadata
  fibFiberId : List Int
  fibRadius : List Int
  fibOversample : List Rat
  fibNorm : List (List Rat)
  profFiberId : List Int
  profRows : List Rat
  profProfiles : List (List Rat)
  profMasks : List (List Bool)
  deriving DecidableEq

/-- One entry of the Python `masks` list built by `_writeImpl` (lines
336-342).  The constructor (line 115) wraps every profiles entry with
`np.ma.masked_array`, and a row of a 2-D masked array is itself a
`MaskedArray`, so the `isinstance` test at line 337 always holds and the
`else` branch appending an empty row (line 342) is unreachable: the loop
appends `pp.mask`, which is the corresponding row of the explicit boolean
mask when one is present, and the 0-d scalar `numpy.ma.nomask` when the
profile carries no mask. -/
inductive MaskCell where
  | row (xs : List Bool)
  | nomask
  deriving DecidableEq

/-- The `masks` entries appended for one fiber by the write loop: with an
explicit mask, the rows of that mask; with `numpy.ma.nomask`, one `nomask`
scalar per data row. -/
def maskCellsOf (m : MaskedMatrix) : List MaskCell :=
  match m.mask with
  | some mm => mm.map MaskCell.row
  | none => m.data.map fun _ => MaskCell.nomask

/-- The `PL()` table row stored for one cell of the masks list.  An explicit
boolean row is stored as that row (spec section 4.3: one variable-length
entry per table row).  The sources provided do not include astropy, so the
row obtained from the 0-d `nomask` scalar is not determined by them; the
variable-length codec stores the elements of a cell and a 0-d numpy scalar
has size 1, so it is rendered here as the one-element row.  No theorem
below depends on this case: every statement about `writeImpl` either
assumes explicit masks (`explicitMasksOk`) or reasons through the cells
themselves. -/
def plRow : MaskCell → List Bool
  | .row xs => xs
  | .nomask => [false]

/-- The `masks` rows emitted for one fiber into the written file. -/
def maskRowsOf (m : MaskedMatrix) : List (List Bool) :=
  (maskCellsOf m).map plRow

/-- `PfsFiberProfiles._writeImpl` (lines 304-353).  The `PROFILES` columns
concatenate the per-fiber blocks in fiber order: the source fills
preallocated arrays at offsets `start..start+num`, which is exactly
blockwise concatenation; `fiberId` is repeated once per profile row of its
fiber. -/
def writeImpl (p : PfsFiberProfilesData) : FitsFile :=
  { header := headerSet (astropyHeaderFromDict p.metadata) "OBSTYPE" (.s "fiberProfiles")
    fibFiberId := p.fiberId
    fibRadius := p.radius
    fibOversample := p.oversample
    fibNorm := p.norm
    profFiberId := ((p.fiberId.zip p.rows).map fun q => q.2.map fun _ => q.1).flatten
    profRows := p.rows.flatten
    profProfiles := (p.profiles.map MaskedMatrix.data).flatten
    profMasks := (p.profiles.map maskRowsOf).flatten }

/-- The full Python `masks` list of `_writeImpl` (initialized at line 329,
filled at lines 336-342), in profile-row order, before astropy turns it
into the `PL()` column. -/
def writeMaskCells (p : PfsFiberProfilesData) : List MaskCell :=
  (p.profiles.map maskCellsOf).flatten

/-! ## Reading: numpy semantics of `_readImpl` -/

/-- `np.array(xs.tolist())` on a list of variable-length rows: an empty list
gives an empty (0-row) array, equal-length rows give a 2-D array, ragged
rows raise `ValueError`. -/
def npArray2D {α : Type} (rows : List (List α)) : Except PyError (List (List α)) :=
  match rows with
  | [] => .ok []
  | r :: rs => if rs.all fun q => q.length == r.length then .ok (r :: rs)
               else .error .valueError

/-- Total number of elements of a 2-D array. -/
def matSize {α : Type} (m : List (List α)) : Nat :=
  (m.map List.length).sum

/-- Cyclic fill used by `np.resize`: repeat `xs` until `n` elements. -/
def cycleTake (xs : List Bool) : Nat → List Bool → List Bool
  | 0, _ => []
  | n + 1, [] =>
    match xs with
    | [] => []
    | y :: ys => y :: cycleTake xs n ys
  | n + 1, c :: cs => c :: cycleTake xs n cs

/-- Regroup a flat boolean list into rows with the shape of `template`. -/
def chunkLike {α : Type} : List (List α) → List Bool → List (List Bool)
  | [], _ => []
  | r :: rs, flat => flat.take r.length :: chunkLike rs (flat.drop r.length)

/-- `np.ma.masked_array(data, mask=mask)` for a 2-D `data` array:
if the shapes agree the mask is taken as is; otherwise numpy resizes a
one-element mask (tiling it over the data shape), reshapes a mask of equal
total size, and raises `MaskError` in every other case.  `mask=False`
(`none`) means no masking. -/
def npMaskedArray (dat : List (List Rat)) (mask : Option (List (List Bool))) :
    Except PyError MaskedMatrix :=
  match mask with
  | none => .ok ⟨dat, none⟩
  | some mm =>
    if mm.map List.length == dat.map List.length then .ok ⟨dat, some mm⟩
    else
      let nd := matSize dat
      let nm := matSize mm
      if nm == 1 then .ok ⟨dat, some (chunkLike dat (cycleTake mm.flatten nd mm.flatten))⟩
      else if nm == nd then .ok ⟨dat, some (chunkLike dat mm.flatten)⟩
      else .error .maskError

/-- `column[select]` where `select = (keys == t)`: the values whose parallel
key equals `t`, in stored order. -/
def selectBy {α : Type} (keys : List Int) (vals : List α) (t : Int) : List α :=
  ((keys.zip vals).filter fun q => q.1 == t).map Prod.snd

/-- One iteration of the fiber loop of `_readImpl` (lines 219-224): select
the `PROFILES` rows of fiber `t`; rebuild the data matrix; build the mask
from the selected mask rows when the selection is nonempty
(`masks[select].size > 0` counts selected rows), else use `False`. -/
def readFiber (f : FitsFile) (t : Int) : Except PyError (List Rat × MaskedMatrix) := do
  let rowsSel := selectBy f.profFiberId f.profRows t
  let dataSel := selectBy f.profFiberId f.profProfiles t
  let maskSel := selectBy f.profFiberId f.profMasks t
  let dat ← npArray2D dataSel
  let mask ← if maskSel.length > 0 then (npArray2D maskSel).map some else .ok none
  let mat ← npMaskedArray dat mask
  .ok (rowsSel, mat)

/-- `PfsFiberProfiles._readImpl` (lines 186-226): decode the primary header,
take the `FIBERS` columns, regroup the `PROFILES` rows fiber by fiber, and
run the constructor (which validates). -/
def readImpl (f : FitsFile) (identity : CalibIdentity) :
    Except PyError PfsFiberProfilesData := do
  let metadata := astropyHeaderToDict f.header
  let fibers ← f.fibFiberId.mapM fun t => readFiber f t
  mkPfsFiberProfiles identity f.fibFiberId f.fibRadius f.fibOversample
    (fibers.map Prod.fst) (fibers.map Prod.snd) f.fibNorm metadata

/-! ## printf-style rendering of the filename format templates -/

/-- Digit characters, as produced by the Python percent-d and percent-x
directives: the decimal digits, then the lowercase letters a to f. -/
def digChar (n : Nat) : Char :=
  if n < 10 then Char.ofNat (48 + n)
  else if n < 16 then Char.ofNat (87 + n)
  else '*'

/-- Digits of `n` in base `b` (for `b ≥ 2`), most significant first; the
fuel is structural so that the definition computes by kernel reduction, and
any fuel above `n` suffices. -/
def natBaseCharsAux (b : Nat) : Nat → Nat → List Char
  | 0, _ => []
  | fuel + 1, n =>
    if n < b then [digChar n]
    else natBaseCharsAux b fuel (n / b) ++ [digChar (n % b)]

/-- Decimal digits of a natural number, most significant first. -/
def natDecChars (n : Nat) : List Char :=
  natBaseCharsAux 10 (n + 1) n

/-- Hexadecimal digits of a natural number, most significant first. -/
def natHexChars (n : Nat) : List Char :=
  natBaseCharsAux 16 (n + 1) n

/-- Left-pad with `'0'` to width `w` (no-op when already at least `w` long). -/
def padZeros (w : Nat) (cs : List Char) : List Char :=
  List.replicate (w - cs.length) '0' ++ cs

/-- Left-pad with spaces to width `w`. -/
def padSpaces (w : Nat) (cs : List Char) : List Char :=
  List.replicate (w - cs.length) ' ' ++ cs

/-- Python percent-0wd of `n`: zero-padded decimal; a negative sign counts
toward the width and the zeros follow it. -/
def fmtIntDec (w : Nat) (n : Int) : List Char :=
  if n < 0 then '-' :: padZeros (w - 1) (natDecChars (-n).toNat)
  else padZeros w (natDecChars n.toNat)

/-- Python percent-0wx of `n`: zero-padded lowercase hex, no `0x` marker. -/
def fmtIntHex (w : Nat) (n : Int) : List Char :=
  if n < 0 then '-' :: padZeros (w - 1) (natHexChars (-n).toNat)
  else padZeros w (natHexChars n.toNat)

/-- Python percent-ws of `s`: right-aligned string in a field of width `w`. -/
def fmtStr (w : Nat) (s : String) : List Char :=
  padSpaces w s.toList

/-! ## Identity records of the drp product classes (src/drp.py) -/

structure PfsArmIdentity where
  expId : Int
  arm : String
  spectrograph : Int
  deriving DecidableEq

structure PfsMergedIdentity where
  expId : Int
  deriving DecidableEq

structure PfsReferenceIdentity where
  catId : Int
  tract : Int
  patch : String
  objId : Int
  deriving DecidableEq

structure PfsSingleIdentity where
  catId : Int
  tract : Int
  patch : String
  objId : Int
  expId : Int
  deriving DecidableEq

structure PfsObjectIdentity where
  catId : Int
  tract : Int
  patch : String
  objId : Int
  numExp : Int
  expHash : Int
  deriving DecidableEq

/-! ## Filename rendering

The format templates are the `filenameFormat` strings of the source; the
rendering of `template % identity` is Python %-formatting.  The drp classes
inherit `getFilename` from their spectrum base classes (not in src); it is
modelled from the spec (section 4.1: "`filename(identity) → str` renders
from the format template"). -/

/-- `PfsArm.filenameFormat = "pfsArm-%(expId)06d-%(arm)1s%(spectrograph)1d.fits"`. -/
def pfsArmFilenameChars (id : PfsArmIdentity) : List Char :=
  "pfsArm-".toList ++ fmtIntDec 6 id.expId ++ "-".toList ++ fmtStr 1 id.arm ++
  fmtIntDec 1 id.spectrograph ++ ".fits".toList

/-- `PfsMerged.filenameFormat = "pfsMerged-%(expId)06d.fits"`. -/
def pfsMergedFilenameChars (id : PfsMergedIdentity) : List Char :=
  "pfsMerged-".toList ++ fmtIntDec 6 id.expId ++ ".fits".toList

/-- `PfsReference.filenameFormat =
"pfsReference-%(catId)03d-%(tract)05d-%(patch)s-%(objId)016x.fits"`.
Note that the template spells no literal `0x` before the hex field. -/
def pfsReferenceFilenameChars (id : PfsReferenceIdentity) : List Char :=
  "pfsReference-".toList ++ fmtIntDec 3 id.catId ++ "-".toList ++
  fmtIntDec 5 id.tract ++ "-".toList ++ id.patch.toList ++ "-".toList ++
  fmtIntHex 16 id.objId ++ ".fits".toList

/-- `PfsSingle.filenameFormat =
"pfsSingle-%(catId)03d-%(tract)05d-%(patch)s-%(objId)016x-%(expId)06d.fits"`. -/
def pfsSingleFilenameChars (id : PfsSingleIdentity) : List Char :=
  "pfsSingle-".toList ++ fmtIntDec 3 id.catId ++ "-".toList ++
  fmtIntDec 5 id.tract ++ "-".toList ++ id.patch.toList ++ "-".toList ++
  fmtIntHex 16 id.objId ++ "-".toList ++ fmtIntDec 6 id.expId ++ ".fits".toList

/-- `PfsObject.filenameFormat = "pfsObject-%(catId)03d-%(tract)05d-%(patch)s-
%(objId)016x-%(numExp)03d-%(expHash)08x.fits"` (one line in the source). -/
def pfsObjectFilenameChars (id : PfsObjectIdentity) : List Char :=
  "pfsObject-".toList ++ fmtIntDec 3 id.catId ++ "-".toList ++
  fmtIntDec 5 id.tract ++ "-".toList ++ id.patch.toList ++ "-".toList ++
  fmtIntHex 16 id.objId ++ "-".toList ++ fmtIntDec 3 id.numExp ++ "-".toList ++
  fmtIntHex 8 id.expHash ++ ".fits".toList

def PfsArm.getFilename (id : PfsArmIdentity) : String :=
  String.mk (pfsArmFilenameChars id)

def PfsMerged.getFilename (id : PfsMergedIdentity) : String :=
  String.mk (pfsMergedFilenameChars id)

def PfsReference.getFilename (id : PfsReferenceIdentity) : String :=
  String.mk (pfsReferenceFilenameChars id)

def PfsSingle.getFilename (id : PfsSingleIdentity) : String :=
  String.mk (pfsSingleFilenameChars id)

def PfsObject.getFilename (id : PfsObjectIdentity) : String :=
  String.mk (pfsObjectFilenameChars id)

/-- `PfsFiberProfiles.filenameFormat =
"pfsFiberProfiles-%(obsDate)10s-%(visit0)06d-%(arm)1s%(spectrograph)1d.fits"`. -/
def pfsFiberProfilesFilenameChars (id : CalibIdentity) : List Char :=
  "pfsFiberProfiles-".toList ++ fmtStr 10 id.obsDate ++ "-".toList ++
  fmtIntDec 6 id.visit0 ++ "-".toList ++ fmtStr 1 id.arm ++
  fmtIntDec 1 id.spectrograph ++ ".fits".toList

/-- `PfsFiberProfiles.getFilename` (lines 147-161) evaluates
`cls.filenameFormat % identity.getDict()`.  Attribute lookup of `getDict`
on the identity happens first; `CalibIdentity` defines no such attribute
(see `CalibIdentity.attrNames`), so the call raises `AttributeError`. -/
def PfsFiberProfiles.getFilenameE (identity : CalibIdentity) : Except PyError String :=
  if CalibIdentity.attrNames.contains "getDict" then
    .ok (String.mk (pfsFiberProfilesFilenameChars identity))
  else .error (.attributeError "getDict")

/-- The `filename` property (lines 142-145): `getFilename(self.identity)`. -/
def PfsFiberProfiles.filenameE (p : PfsFiberProfilesData) : Except PyError String :=
  PfsFiberProfiles.getFilenameE p.identity

/-- `PfsFiberProfiles.read` (lines 250-273): join directory and
`getFilename(identity)`, open the file through the filesystem oracle `fs`,
decode with `_readImpl`. -/
def PfsFiberProfiles.readE (fs : String → Option FitsFile)
    (identity : CalibIdentity) (dirName : String) :
    Except PyError PfsFiberProfilesData := do
  let fn ← PfsFiberProfiles.getFilenameE identity
  match fs (dirName ++ "/" ++ fn) with
  | none => .error .ioError
  | some f => readImpl f identity

/-- `PfsFiberProfiles.write` (lines 289-302): compute `self.filename`, then
write `_writeImpl()` there; the returned pair is the path and the encoded
container. -/
def PfsFiberProfiles.writeE (p : PfsFiberProfilesData) (dirName : String) :
    Except PyError (String × FitsFile) := do
  let fn ← PfsFiberProfiles.filenameE p
  .ok (dirName ++ "/" ++ fn, writeImpl p)

/-! ## Regex matchers

Each `filenameRegex` of the source is translated into an explicit matcher on
character lists.  The regexes use only literals, fixed-count character
classes (`\d{6}`, `\S{10}`, `.{8}`, `[brnm]`), one greedy `(.*)` group, and a
trailing `.*`; `.` matches any character (filenames contain no newline).
The five drp regexes are anchored (`^...$`) so matching starts at the head
of the basename; the `PfsFiberProfiles` regex has no anchors and the source
applies it with `re.search`, which scans for the leftmost match. -/

/-- Consume an exact literal. -/
def stripLit : List Char → List Char → Option (List Char)
  | [], cs => some cs
  | _ :: _, [] => none
  | l :: ls, c :: cs => if l = c then stripLit ls cs else none

/-- Consume exactly `n` characters satisfying `p`, returning them. -/
def takeCount : Nat → (Char → Bool) → List Char → Option (List Char × List Char)
  | 0, _, cs => some ([], cs)
  | _ + 1, _, [] => none
  | n + 1, p, c :: cs =>
    if p c then (takeCount n p cs).map fun q => (c :: q.1, q.2) else none

/-- Greedy `(.*)` followed by `sfx`: the longest split whose remainder the
suffix matcher accepts, as the Python backtracking engine produces. -/
def greedySplit {α : Type} (sfx : List Char → Option α) (cs : List Char) :
    Option (List Char × α) :=
  ((List.range (cs.length + 1)).map fun k =>
    let i := cs.length - k
    (sfx (cs.drop i)).map fun a => (cs.take i, a)).findSome? id

/-- `os.path.split(path)[1]`: everything after the last `'/'`. -/
def basenameChars (cs : List Char) : List Char :=
  (cs.reverse.takeWhile fun c => c != '/').reverse

/-! ## Coercion of captured groups -/

def digitVal (c : Char) : Nat := c.toNat - 48

/-- Python `int(s)` on a run of decimal digits. -/
def digitsVal (cs : List Char) : Nat :=
  cs.foldl (fun a c => 10 * a + digitVal c) 0

def intOfDigits (cs : List Char) : Int := (digitsVal cs : Int)

def hexDigitVal (c : Char) : Nat :=
  if c.isDigit then c.toNat - 48
  else if 'a' ≤ c ∧ c ≤ 'f' then c.toNat - 87
  else if 'A' ≤ c ∧ c ≤ 'F' then c.toNat - 55
  else 0

def hexVal (cs : List Char) : Nat :=
  cs.foldl (fun a c => 16 * a + hexDigitVal c) 0

/-- Modelled from the spec: the key coercion of the drp base classes (not in src)
parses the `objId`/`expHash` captures — which include their literal `0x`
marker — "from hex" (spec sections 4.1 and 6). -/
def intOfHexGroup (cs : List Char) : Int :=
  match cs with
  | '0' :: 'x' :: rest => (hexVal rest : Int)
  | _ => (hexVal cs : Int)

/-! ## Per-class matchers -/

structure ArmGroups where
  expId : List Char
  arm : Char
  spectrograph : Char
  deriving DecidableEq

/-- `PfsArm.filenameRegex = r"^pfsArm-(\d{6})-([brnm])(\d)\.fits.*$"`. -/
def pfsArmMatch (cs : List Char) : Option ArmGroups := do
  let r1 ← stripLit "pfsArm-".toList cs
  let (g1, r2) ← takeCount 6 Char.isDigit r1
  let r3 ← stripLit "-".toList r2
  match r3 with
  | [] => none
  | a :: r4 =>
    if ['b', 'r', 'n', 'm'].contains a then
      match r4 with
      | [] => none
      | s :: r5 =>
        if s.isDigit then do
          let _ ← stripLit ".fits".toList r5
          some ⟨g1, a, s⟩
        else none
    else none

/-- `PfsMerged.filenameRegex = r"^pfsMerged-(\d{6})\.fits.*$"`. -/
def pfsMergedMatch (cs : List Char) : Option (List Char) := do
  let r1 ← stripLit "pfsMerged-".toList cs
  let (g1, r2) ← takeCount 6 Char.isDigit r1
  let _ ← stripLit ".fits".toList r2
  some g1

structure RefGroups where
  catId : List Char
  tract : List Char
  patch : List Char
  objId : List Char
  deriving DecidableEq

/-- The part of `PfsReference.filenameRegex` after the greedy patch group:
`-(0x.{8})\.fits.*$`. -/
def refSuffix (r : List Char) : Option (List Char) := do
  let r1 ← stripLit "-0x".toList r
  let (g, r2) ← takeCount 8 (fun _ => true) r1
  let _ ← stripLit ".fits".toList r2
  some ('0' :: 'x' :: g)

/-- `PfsReference.filenameRegex =
r"^pfsReference-(\d{3})-(\d{5})-(.*)-(0x.{8})\.fits.*$"`. -/
def pfsReferenceMatch (cs : List Char) : Option RefGroups := do
  let r1 ← stripLit "pfsReference-".toList cs
  let (g1, r2) ← takeCount 3 Char.isDigit r1
  let r3 ← stripLit "-".toList r2
  let (g2, r4) ← takeCount 5 Char.isDigit r3
  let r5 ← stripLit "-".toList r4
  let (patch, g4) ← greedySplit refSuffix r5
  some ⟨g1, g2, patch, g4⟩

structure SingleGroups where
  catId : List Char
  tract : List Char
  patch : List Char
  objId : List Char
  expId : List Char
  deriving DecidableEq

/-- The part of `PfsSingle.filenameRegex` after the patch group:
`-(0x.{16})-(\d{6})\.fits.*$`. -/
def singleSuffix (r : List Char) : Option (List Char × List Char) := do
  let r1 ← stripLit "-0x".toList r
  let (g, r2) ← takeCount 16 (fun _ => true) r1
  let r3 ← stripLit "-".toList r2
  let (e, r4) ← takeCount 6 Char.isDigit r3
  let _ ← stripLit ".fits".toList r4
  some ('0' :: 'x' :: g, e)

/-- `PfsSingle.filenameRegex =
r"^pfsSingle-(\d{3})-(\d{5})-(.*)-(0x.{16})-(\d{6})\.fits.*$"`. -/
def pfsSingleMatch (cs : List Char) : Option SingleGroups := do
  let r1 ← stripLit "pfsSingle-".toList cs
  let (g1, r2) ← takeCount 3 Char.isDigit r1
  let r3 ← stripLit "-".toList r2
  let (g2, r4) ← takeCount 5 Char.isDigit r3
  let r5 ← stripLit "-".toList r4
  let (patch, rest) ← greedySplit singleSuffix r5
  some ⟨g1, g2, patch, rest.1, rest.2⟩

structure ObjectGroups where
  catId : List Char
  tract : List Char
  patch : List Char
  objId : List Char
  numExp : List Char
  expHash : List Char
  deriving DecidableEq

/-- The part of `PfsObject.filenameRegex` after the patch group:
`-(0x.{16})-(\d{3})-(0x.{8})\.fits.*$`. -/
def objectSuffix (r : List Char) : Option (List Char × List Char × List Char) := do
  let r1 ← stripLit "-0x".toList r
  let (g, r2) ← takeCount 16 (fun _ => true) r1
  let r3 ← stripLit "-".toList r2
  let (n3, r4) ← takeCount 3 Char.isDigit r3
  let r5 ← stripLit "-0x".toList r4
  let (h, r6) ← takeCount 8 (fun _ => true) r5
  let _ ← stripLit ".fits".toList r6
  some ('0' :: 'x' :: g, n3, '0' :: 'x' :: h)

/-- `PfsObject.filenameRegex =
r"^pfsObject-(\d{3})-(\d{5})-(.*)-(0x.{16})-(\d{3})-(0x.{8})\.fits.*$"`. -/
def pfsObjectMatch (cs : List Char) : Option ObjectGroups := do
  let r1 ← stripLit "pfsObject-".toList cs
  let (g1, r2) ← takeCount 3 Char.isDigit r1
  let r3 ← stripLit "-".toList r2
  let (g2, r4) ← takeCount 5 Char.isDigit r3
  let r5 ← stripLit "-".toList r4
  let (patch, rest) ← greedySplit objectSuffix r5
  some ⟨g1, g2, patch, rest.1, rest.2.1, rest.2.2⟩

structure FpGroups where
  obsDate : List Char
  visit0 : List Char
  arm : Char
  spectrograph : Char
  deriving DecidableEq

/-- One attempt of `PfsFiberProfiles.filenameRegex =
r"pfsFiberProfiles-(?P<obsDate>\S{10})-(?P<visit0>\d{6})-(?P<arm>\S)
(?P<spectrograph>\d).fits"` at a fixed offset.  The dot before `fits` is
unescaped, so it matches any character, and nothing anchors the end. -/
def pfsFiberProfilesMatchAt (cs : List Char) : Option FpGroups := do
  let r1 ← stripLit "pfsFiberProfiles-".toList cs
  let (g1, r2) ← takeCount 10 (fun c => !c.isWhitespace) r1
  let r3 ← stripLit "-".toList r2
  let (g2, r4) ← takeCount 6 Char.isDigit r3
  let r5 ← stripLit "-".toList r4
  match r5 with
  | [] => none
  | a :: r6 =>
    if !a.isWhitespace then
      match r6 with
      | [] => none
      | s :: r7 =>
        if s.isDigit then do
          let (_, r8) ← takeCount 1 (fun _ => true) r7
          let _ ← stripLit "fits".toList r8
          some ⟨g1, g2, a, s⟩
        else none
    else none

/-- `re.search` of the unanchored `PfsFiberProfiles` regex: try each start
offset from the left. -/
def pfsFiberProfilesSearch : List Char → Option FpGroups
  | [] => pfsFiberProfilesMatchAt []
  | c :: cs =>
    match pfsFiberProfilesMatchAt (c :: cs) with
    | some g => some g
    | none => pfsFiberProfilesSearch cs

/-! ## `parseFilename` of each product class

For the drp classes this method lives in the spectrum base classes, which
are not in src; it is modelled from the spec (section 4.1: strip the
directory, match the basename against `filenameRegex`, coerce the captured
groups per `filenameKeys`, raise a parse error when the regex does not
match).  The regexes and key lists themselves are from src/drp.py.
`PfsFiberProfiles.parseFilename` is in src (lines 163-184) and raises
`RuntimeError` on failure. -/

def PfsArm.parseFilename (path : String) : Except PyError PfsArmIdentity :=
  match pfsArmMatch (basenameChars path.toList) with
  | some g => .ok ⟨intOfDigits g.expId, String.mk [g.arm], intOfDigits [g.spectrograph]⟩
  | none => .error .parseError

def PfsMerged.parseFilename (path : String) : Except PyError PfsMergedIdentity :=
  match pfsMergedMatch (basenameChars path.toList) with
  | some g => .ok ⟨intOfDigits g⟩
  | none => .error .parseError

def PfsReference.parseFilename (path : String) : Except PyError PfsReferenceIdentity :=
  match pfsReferenceMatch (basenameChars path.toList) with
  | some g => .ok ⟨intOfDigits g.catId, intOfDigits g.tract, String.mk g.patch,
      intOfHexGroup g.objId⟩
  | none => .error .parseError

def PfsSingle.parseFilename (path : String) : Except PyError PfsSingleIdentity :=
  match pfsSingleMatch (basenameChars path.toList) with
  | some g => .ok ⟨intOfDigits g.catId, intOfDigits g.tract, String.mk g.patch,
      intOfHexGroup g.objId, intOfDigits g.expId⟩
  | none => .error .parseError

def PfsObject.parseFilename (path : String) : Except PyError PfsObjectIdentity :=
  match pfsObjectMatch (basenameChars path.toList) with
  | some g => .ok ⟨intOfDigits g.catId, intOfDigits g.tract, String.mk g.patch,
      intOfHexGroup g.objId, intOfDigits g.numExp, intOfHexGroup g.expHash⟩
  | none => .error .parseError

/-- `PfsFiberProfiles.parseFilename` (lines 163-184): `re.search` of the
regex on the basename, then `CalibIdentity.fromDict` on the group dict
(whose constructor applies `int()` to `spectrograph` and `visit0`). -/
def PfsFiberProfiles.parseFilename (path : String) : Except PyError CalibIdentity :=
  match pfsFiberProfilesSearch (basenameChars path.toList) with
  | some g => .ok ⟨String.mk g.obsDate, intOfDigits [g.spectrograph],
      String.mk [g.arm], intOfDigits g.visit0⟩
  | none => .error .runtimeError

/-! ## Comparing masked arrays -/

/-- The effective element mask of a masked array: `numpy.ma.nomask` means no
element is masked. -/
def MaskedMatrix.effMask (m : MaskedMatrix) : List (List Bool) :=
  match m.mask with
  | some mm => mm
  | none => m.data.map fun row => row.map fun _ => false

/-- Equality of masked arrays up to the two representations of "nothing
masked": same data and same effective mask. -/
def MaskedMatrix.Equiv (a b : MaskedMatrix) : Prop :=
  a.data = b.data ∧ a.effMask = b.effMask

/-- What `_readImpl` reconstructs for a fiber that was written with an
explicit shape-true mask: unchanged, except that a fiber with no profiles
comes back with `mask=False` instead of an empty explicit mask. -/
def readNormal (m : MaskedMatrix) : MaskedMatrix :=
  if m.data.isEmpty then ⟨m.data, none⟩ else m

/-- Every fiber profile carries an explicit mask whose rows match its data
rows in number and length. -/
def explicitMasksOk (p : PfsFiberProfilesData) : Bool :=
  p.profiles.all fun m =>
    match m.mask with
    | some mm => mm.map List.length == m.data.map List.length
    | none => false

/-- `Except.isOk` spelled out for the constructed objects. -/
def exceptIsOk {ε α : Type} : Except ε α → Bool
  | .ok _ => true
  | .error _ => false

/-! ## Blockwise view of the `PROFILES` columns -/

/-- The key column obtained by repeating the tag of each block once per payload
row: exactly the `fiberId` column `_writeImpl` builds. -/
def blockIds {α : Type} (pairs : List (Int × List α)) : List Int :=
  (pairs.map fun pr => pr.2.map fun _ => pr.1).flatten

/-- The value column obtained by concatenating the payload blocks. -/
def blockVals {α : Type} (pairs : List (Int × List α)) : List α :=
  (pairs.map Prod.snd).flatten

/-! ## Concrete fixtures for witnesses and counterexamples -/

def sampleIdentity : CalibIdentity := ⟨"2024-01-02", 1, "b", 42⟩

/-- A single profile row `[5]` of width 1 with an explicit all-false mask. -/
def maskedUnit : MaskedMatrix := ⟨[[5]], some [[false]]⟩

/-- Fiber 10 twice (first with one profile, second with none), otherwise
valid shapes: `radius=0`, `oversample=0` give profile width
`int(2*(0+1)*0)+1 = 1`. -/
def pDup : PfsFiberProfilesData :=
  ⟨sampleIdentity, [10, 10], [0, 0], [0, 0], [[0], []], [maskedUnit, ⟨[], some []⟩],
    [[], []], [("OBSTYPE", .s "fiberProfiles")]⟩

/-- What decoding `writeImpl pDup` produces: both fibers select the same
single `PROFILES` row, so the second fiber steals the profile of the first. -/
def pDupRead : PfsFiberProfilesData :=
  ⟨sampleIdentity, [10, 10], [0, 0], [0, 0], [[0], [0]], [maskedUnit, maskedUnit],
    [[], []], [("OBSTYPE", .s "fiberProfiles")]⟩

/-- One fiber whose single profile row carries no mask (`nomask`). -/
def pUnmasked : PfsFiberProfilesData :=
  ⟨sampleIdentity, [11], [0], [0], [[2]], [⟨[[7]], none⟩], [[]], []⟩

/-- The file that claim C7 says `_writeImpl` produces for `pUnmasked`: the
single unmasked profile row `[7]` stored next to an empty (length-0)
`masks` row, with all other columns as the write path fills them. -/
def c7File : FitsFile :=
  { header := [("OBSTYPE", .s "fiberProfiles")]
    fibFiberId := [11]
    fibRadius := [0]
    fibOversample := [0]
    fibNorm := [[]]
    profFiberId := [11]
    profRows := [2]
    profProfiles := [[7]]
    profMasks := [[]] }

/-- A valid object with distinct fiberIds, explicit masks, an empty second
fiber, and an empty first norm: profile width is `int(2*(0+1)*1)+1 = 3`. -/
def pGood : PfsFiberProfilesData :=
  ⟨sampleIdentity, [10, 20], [0, 0], [1, 1], [[1], []],
    [⟨[[3, 4, 5]], some [[false, false, true]]⟩, ⟨[], some []⟩],
    [[], [7]], [("OBSTYPE", .s "fiberProfiles")]⟩

/-- A profile row of `k` zeros. -/
def rowOf (k : Nat) : List Rat := List.replicate k 0

def objectSampleIdentity : PfsObjectIdentity := ⟨7, 321, "5,7", 0xdeadbeef, 3, 0xcafef00d⟩

def referenceSampleIdentity : PfsReferenceIdentity := ⟨7, 321, "5,7", 0xdeadbeef⟩

/-! # Theorems -/

/-- Claim C3: `PfsFiberProfiles.getFilename` formats with `identity.getDict()`,
an attribute `CalibIdentity` does not define (it defines `toDict` only), so
`getFilename` — and through it the `filename` property, `read` and `write` —
raises `AttributeError` for every `CalibIdentity`. -/
theorem c3_getDict_attribute_error (identity : CalibIdentity)
    (fs : String → Option FitsFile) (dir : String) (p : PfsFiberProfilesData) :
    PfsFiberProfiles.getFilenameE identity = .error (.attributeError "getDict") ∧
    PfsFiberProfiles.filenameE p = .error (.attributeError "getDict") ∧
    PfsFiberProfiles.readE fs identity dir = .error (.attributeError "getDict") ∧
    PfsFiberProfiles.writeE p dir = .error (.attributeError "getDict") :=
  ⟨rfl, rfl, rfl, rfl⟩

/-- Claim C4 counterexample: `fiberId=[10,10]` with otherwise valid shapes is
accepted by the constructor: no `DuplicateIdError` (or any error) is raised,
contrary to the claim that duplicates are rejected at construction. -/
theorem c4_counterexample :
    exceptIsOk (mkPfsFiberProfiles sampleIdentity [10, 10] [0, 0] [0, 0] [[], []]
      [⟨[], none⟩, ⟨[], none⟩] [[], []] []) = true := by decide

/-- Claim C4 amended: Construction succeeds exactly when the shape checks of
`validate` pass, and those checks see only the length of `fiberId`, never
its values, so any duplicate-laden `fiberId` of the right length is
accepted. -/
theorem c4_duplicates_accepted_amended (identity : CalibIdentity)
    (fiberId fiberIdB : List Int) (radius : List Int) (oversample : List Rat)
    (rows : List (List Rat)) (profiles : List MaskedMatrix)
    (norm : List (List Rat)) (metadata : Metadata)
    (hlen : fiberIdB.length = fiberId.length) :
    exceptIsOk (mkPfsFiberProfiles identity fiberId radius oversample rows
        profiles norm metadata) =
      validateArgs fiberId radius oversample rows profiles norm ∧
    validateArgs fiberIdB radius oversample rows profiles norm =
      validateArgs fiberId radius oversample rows profiles norm := by
  constructor
  · by_cases h : validateArgs fiberId radius oversample rows profiles norm
    · simp [mkPfsFiberProfiles, h, exceptIsOk]
    · simp [mkPfsFiberProfiles, h, exceptIsOk]
  · simp [validateArgs, hlen]

/-- Witness for C4 (amended): the duplicate list `[10,10]` has the length of
`[1,2]`, and construction with it succeeds. -/
theorem c4_duplicates_accepted_amended_witness :
    ([10, 10] : List Int).length = ([1, 2] : List Int).length ∧
    exceptIsOk (mkPfsFiberProfiles sampleIdentity [1, 2] [0, 0] [0, 0] [[], []]
        [⟨[], none⟩, ⟨[], none⟩] [[], []] []) =
      validateArgs [1, 2] [0, 0] [0, 0] [[], []] [⟨[], none⟩, ⟨[], none⟩] [[], []] :=
  ⟨rfl, (c4_duplicates_accepted_amended sampleIdentity [1, 2] [10, 10] [0, 0] [0, 0]
    [[], []] [⟨[], none⟩, ⟨[], none⟩] [[], []] [] rfl).1⟩

/-- Claim C5 counterexample: A profile row of length 12 against
`radius=1, oversample=3` (required width 13) raises plain `AssertionError`;
an array-length mismatch raises the very same `AssertionError` (the kinds
are not distinct); and a duplicate identifier raises nothing at all. -/
theorem c5_counterexample :
    mkPfsFiberProfiles sampleIdentity [1] [1] [3] [[0]] [⟨[rowOf 12], none⟩] [[]] []
      = .error .assertionError ∧
    mkPfsFiberProfiles sampleIdentity [1, 2] [1] [3] [[0]] [⟨[rowOf 13], none⟩] [[]] []
      = .error .assertionError ∧
    exceptIsOk (mkPfsFiberProfiles sampleIdentity [10, 10] [0, 0] [0, 0] [[], []]
      [⟨[], none⟩, ⟨[], none⟩] [[], []] []) = true := by decide

/-- Claim C5 amended: A profile-width mismatch fails construction, but with
the same undifferentiated `AssertionError` that an array-length mismatch
produces (Python `assert` carries no kind), and duplicate identifiers fail
nothing. -/
theorem c5_same_assertion_error_amended (k : Nat)
    (hk : (k : Int) ≠ profileWidth 1 3) :
    mkPfsFiberProfiles sampleIdentity [1] [1] [3] [[0]] [⟨[rowOf k], none⟩] [[]] []
      = .error .assertionError ∧
    mkPfsFiberProfiles sampleIdentity [1, 2] [1] [3] [[0]] [⟨[rowOf 13], none⟩] [[]] []
      = .error .assertionError ∧
    exceptIsOk (mkPfsFiberProfiles sampleIdentity [10, 10] [0, 0] [0, 0] [[], []]
      [⟨[], none⟩, ⟨[], none⟩] [[], []] []) = true := by
  refine ⟨?_, by decide, by decide⟩
  have hfalse : validateArgs [1] [1] [3] [[0]] [⟨[rowOf k], none⟩] [[]] = false := by
    simp [validateArgs, rowOf, hk]
  simp [mkPfsFiberProfiles, hfalse]

/-- Witness for C5 (amended) at the concrete length 12 (required width 13). -/
theorem c5_same_assertion_error_amended_witness :
    ((12 : Nat) : Int) ≠ profileWidth 1 3 ∧
    mkPfsFiberProfiles sampleIdentity [1] [1] [3] [[0]] [⟨[rowOf 12], none⟩] [[]] []
      = .error .assertionError :=
  ⟨by decide, (c5_same_assertion_error_amended 12 (by decide)).1⟩

/-- Claim C7 code bug: the write loop never stores the claimed empty
`masks` row for an unmasked profile — `__init__` wraps every profiles entry
as a masked array, rows of a masked array are masked arrays, so the branch
that would append an empty row is unreachable and the loop appends the 0-d
`nomask` scalar instead; and the claimed read-side canonicalization does
not exist either: `_readImpl` tests `masks[select].size` per fiber
selection, not per row, so the file that does hold the empty mask row next
to the width-1 data row raises `MaskError` (a `(1,0)` mask against `(1,1)`
data fits neither the resize nor the reshape rule) instead of
reconstructing a row with no masked entries. -/
theorem c7_unmasked_mask_divergence :
    pUnmasked.validateOk = true ∧
    writeMaskCells pUnmasked = [MaskCell.nomask] ∧
    writeMaskCells pUnmasked ≠ [MaskCell.row []] ∧
    readImpl c7File pUnmasked.identity = .error .maskError := by
  decide

/-- Claim C1 counterexample: `pDup` passes construction-time validation (the
source `validate` never checks duplicates), yet decoding its encoding yields
an object whose `rows` differ from the original: the claim fails for a
validation-passing object. -/
theorem c1_counterexample :
    pDup.validateOk = true ∧
    readImpl (writeImpl pDup) pDup.identity = .ok pDupRead ∧
    pDupRead.rows ≠ pDup.rows := by decide

/-- Claim C2 counterexample: For `PfsReference` the rendered filename spells
`objId` as bare 16-digit hex while the regex demands a literal `0x` and
eight following characters, so parsing the rendered filename of a concrete
identity raises a parse error instead of returning the identity. -/
theorem c2_counterexample :
    PfsReference.parseFilename (PfsReference.getFilename referenceSampleIdentity)
      = .error .parseError := by decide

/-- Claim C8 counterexample: The `PfsFiberProfiles` regex is unanchored and is
applied with `re.search`, so a basename with extra leading text parses
successfully — contradicting the claim that the regex of every product is
anchored at the start of the basename. -/
theorem c8_counterexample :
    PfsFiberProfiles.parseFilename "XpfsFiberProfiles-2024-01-02-000042-b1.fits"
      = .ok ⟨"2024-01-02", 1, "b", 42⟩ := by decide

/-- Claim C9 counterexample: Rendering the identity parsed from
`pfsObject-007-00321-5,7-0x00000000deadbeef-003-0xcafef00d.fits` does not
prepend `0x` to the hex fields: the format template has no such literal. -/
theorem c9_counterexample :
    PfsObject.getFilename objectSampleIdentity ≠
      "pfsObject-007-00321-5,7-0x00000000deadbeef-003-0xcafef00d.fits" := by
  decide

/-- Claim C9 amended: Parsing the canonical basename yields
`{catId 7, tract 321, patch "5,7", objId 0xdeadbeef, numExp 3,
expHash 0xcafef00d}` with the hex groups coerced from their `0x` captures,
while rendering that identity emits `objId` as 16 bare hex digits and
`expHash` as 8 bare hex digits, without a `0x` marker. -/
theorem c9_object_filename_amended :
    PfsObject.parseFilename "pfsObject-007-00321-5,7-0x00000000deadbeef-003-0xcafef00d.fits"
      = .ok objectSampleIdentity ∧
    PfsObject.getFilename objectSampleIdentity =
      "pfsObject-007-00321-5,7-00000000deadbeef-003-cafef00d.fits" := by
  decide

/-- Claim C8 amended: The five drp regexes are anchored at the start of the
basename (a basename whose first character already breaks the literal head
never matches) and tolerate trailing compression suffixes after `.fits`
(`\.fits.*$`); the `PfsFiberProfiles` regex also tolerates trailing
suffixes (nothing anchors its end) but is unanchored and applied with
`re.search`, so a basename with extra leading text is accepted too. -/
theorem c8_anchoring_amended :
    (∀ s : List Char, pfsArmMatch ('X' :: s) = none) ∧
    (∀ s : List Char, pfsMergedMatch ('X' :: s) = none) ∧
    (∀ s : List Char, pfsReferenceMatch ('X' :: s) = none) ∧
    (∀ s : List Char, pfsSingleMatch ('X' :: s) = none) ∧
    (∀ s : List Char, pfsObjectMatch ('X' :: s) = none) ∧
    PfsArm.parseFilename "pfsArm-001234-r2.fits.gz" = .ok ⟨1234, "r", 2⟩ ∧
    PfsMerged.parseFilename "pfsMerged-000123.fits.fz" = .ok ⟨123⟩ ∧
    PfsReference.parseFilename "pfsReference-007-00321-5,7-0xdeadbeef.fits.gz"
      = .ok ⟨7, 321, "5,7", 0xdeadbeef⟩ ∧
    PfsSingle.parseFilename "pfsSingle-007-00321-5,7-0x00000000deadbeef-000004.fits.gz"
      = .ok ⟨7, 321, "5,7", 0xdeadbeef, 4⟩ ∧
    PfsObject.parseFilename "pfsObject-007-00321-5,7-0x00000000deadbeef-003-0xcafef00d.fits.gz"
      = .ok objectSampleIdentity ∧
    PfsFiberProfiles.parseFilename "pfsFiberProfiles-2024-01-02-000042-b1.fits.gz"
      = .ok sampleIdentity ∧
    PfsFiberProfiles.parseFilename "JUNKpfsFiberProfiles-2024-01-02-000042-b1.fits"
      = .ok sampleIdentity := by
  exact ⟨fun s => rfl, fun s => rfl, fun s => rfl, fun s => rfl, fun s => rfl,
    by decide, by decide, by decide, by decide, by decide, by decide, by decide⟩

/-- Claim C10: `parseFilename` strips the directory and fails with the parse
error of its class whenever the basename does not match the regex
(`RuntimeError` in the `PfsFiberProfiles` source; the modelled drp classes
raise the parse error of the spec taxonomy); `pfsArm-xxxx.fits` is such a basename, with
or without a leading directory, and no identity is returned for it. -/
theorem c10_parse_error_on_mismatch (path : String)
    (harm : pfsArmMatch (basenameChars path.toList) = none)
    (hfp : pfsFiberProfilesSearch (basenameChars path.toList) = none) :
    PfsArm.parseFilename path = .error .parseError ∧
    PfsFiberProfiles.parseFilename path = .error .runtimeError ∧
    PfsArm.parseFilename "pfsArm-xxxx.fits" = .error .parseError ∧
    PfsArm.parseFilename "some/dir/pfsArm-xxxx.fits" = .error .parseError ∧
    PfsArm.parseFilename "some/dir/pfsArm-001234-r2.fits" = .ok ⟨1234, "r", 2⟩ := by
  simp only [String.toList] at harm hfp
  refine ⟨?_, ?_, by decide, by decide, by decide⟩
  · simp [PfsArm.parseFilename, String.toList, harm]
  · simp [PfsFiberProfiles.parseFilename, String.toList, hfp]

/-- Witness for C10 at the non-matching basename `pfsArm-xxxx.fits`. -/
theorem c10_parse_error_on_mismatch_witness :
    pfsArmMatch (basenameChars "pfsArm-xxxx.fits".toList) = none ∧
    PfsArm.parseFilename "pfsArm-xxxx.fits" = .error .parseError :=
  ⟨by decide, (c10_parse_error_on_mismatch "pfsArm-xxxx.fits" (by decide)
    (by decide)).1⟩

/-! ## Selection from blockwise-concatenated columns -/

theorem selectBy_append {α : Type} (k1 k2 : List Int) (v1 v2 : List α) (t : Int)
    (h : k1.length = v1.length) :
    selectBy (k1 ++ k2) (v1 ++ v2) t = selectBy k1 v1 t ++ selectBy k2 v2 t := by
  simp [selectBy, List.zip_append h, List.filter_append]

theorem selectBy_const_self {α : Type} (vs : List α) (t : Int) :
    selectBy (vs.map fun _ => t) vs t = vs := by
  induction vs with
  | nil => rfl
  | cons v vs ih => simpa [selectBy, List.filter_cons] using ih

theorem selectBy_const_ne {α : Type} (vs : List α) (s t : Int) (h : s ≠ t) :
    selectBy (vs.map fun _ => s) vs t = [] := by
  induction vs with
  | nil => rfl
  | cons v vs ih => simpa [selectBy, List.filter_cons, h] using ih

theorem blockIds_cons {α : Type} (pr : Int × List α) (tl : List (Int × List α)) :
    blockIds (pr :: tl) = (pr.2.map fun _ => pr.1) ++ blockIds tl := by
  simp [blockIds]

theorem blockVals_cons {α : Type} (pr : Int × List α) (tl : List (Int × List α)) :
    blockVals (pr :: tl) = pr.2 ++ blockVals tl := by
  simp [blockVals]

theorem selectBy_blocks_not_mem {α : Type} (pairs : List (Int × List α)) (t : Int)
    (h : ∀ pr ∈ pairs, pr.1 ≠ t) :
    selectBy (blockIds pairs) (blockVals pairs) t = [] := by
  induction pairs with
  | nil => rfl
  | cons pr tl ih =>
    rw [blockIds_cons, blockVals_cons, selectBy_append _ _ _ _ _ (by simp),
      selectBy_const_ne _ _ _ (h pr (by simp)),
      ih (fun q hq => h q (List.mem_cons_of_mem pr hq)), List.append_nil]

/-- Selecting the tag of each block from the concatenated columns recovers the
payload of that block, provided the tags are pairwise distinct. -/
theorem selectBy_blocks {α : Type} (pairs : List (Int × List α))
    (hnd : (pairs.map Prod.fst).Nodup) :
    pairs.map (fun pr => selectBy (blockIds pairs) (blockVals pairs) pr.1) =
      pairs.map Prod.snd := by
  induction pairs with
  | nil => rfl
  | cons hd tl ih =>
    rw [List.map_cons, List.nodup_cons] at hnd
    have hne : ∀ pr ∈ tl, pr.1 ≠ hd.1 := by
      intro pr hpr he
      exact hnd.1 (he ▸ List.mem_map_of_mem Prod.fst hpr)
    rw [List.map_cons, List.map_cons]
    congr 1
    · rw [blockIds_cons, blockVals_cons, selectBy_append _ _ _ _ _ (by simp),
        selectBy_const_self, selectBy_blocks_not_mem tl hd.1 hne, List.append_nil]
    · have hcongr : tl.map (fun pr => selectBy (blockIds (hd :: tl))
          (blockVals (hd :: tl)) pr.1) =
          tl.map (fun pr => selectBy (blockIds tl) (blockVals tl) pr.1) := by
        apply List.map_congr_left
        intro pr hpr
        rw [blockIds_cons, blockVals_cons, selectBy_append _ _ _ _ _ (by simp),
          selectBy_const_ne _ _ _ (fun he => hne pr hpr he.symm), List.nil_append]
      rw [hcongr, ih hnd.2]

/-! ## Plumbing lemmas for the read pipeline -/

theorem mapM_ok_of_forall₂ {γ β : Type} {g : γ → Except PyError β}
    {l : List γ} {out : List β}
    (h : List.Forall₂ (fun a b => g a = .ok b) l out) :
    l.mapM g = .ok out := by
  induction h with
  | nil => rfl
  | cons hab _ ih => rw [List.mapM_cons, hab, ih]; rfl

theorem forall₂_of_mapM_ok {γ β : Type} {g : γ → Except PyError β} :
    ∀ (l : List γ) (out : List β), l.mapM g = .ok out →
      List.Forall₂ (fun a b => g a = .ok b) l out := by
  intro l
  induction l with
  | nil =>
    intro out h
    cases h
    exact List.Forall₂.nil
  | cons a l ih =>
    intro out h
    rw [List.mapM_cons] at h
    cases hga : g a with
    | error e => rw [hga] at h; cases h
    | ok b =>
      rw [hga] at h
      cases hl : l.mapM g with
      | error e => rw [hl] at h; cases h
      | ok bs =>
        rw [hl] at h
        cases h
        exact List.Forall₂.cons hga (ih bs hl)

theorem npArray2D_ok_of_width {α : Type} (rows : List (List α)) (w : Nat)
    (h : ∀ r ∈ rows, r.length = w) : npArray2D rows = .ok rows := by
  cases rows with
  | nil => rfl
  | cons r rs =>
    have hall : rs.all (fun q => q.length == r.length) = true := by
      rw [List.all_eq_true]
      intro q hq
      simp [h q (List.mem_cons_of_mem r hq), h r (List.mem_cons_self r rs)]
    simp [npArray2D, hall]

theorem npArray2D_ok_inv {α : Type} {rows out : List (List α)}
    (h : npArray2D rows = .ok out) : out = rows := by
  cases rows with
  | nil => cases h; rfl
  | cons r rs =>
    rw [show npArray2D (r :: rs) =
        (if (rs.all fun q => q.length == r.length) = true then Except.ok (r :: rs)
         else Except.error PyError.valueError) from rfl] at h
    by_cases hall : (rs.all fun q => q.length == r.length) = true
    · rw [if_pos hall] at h
      cases h
      rfl
    · rw [if_neg hall] at h
      cases h

theorem npMaskedArray_same_shape (dat : List (List Rat)) (mm : List (List Bool))
    (h : mm.map List.length = dat.map List.length) :
    npMaskedArray dat (some mm) = .ok ⟨dat, some mm⟩ := by
  simp [npMaskedArray, h]

theorem readNormal_data (m : MaskedMatrix) : (readNormal m).data = m.data := by
  unfold readNormal
  split <;> rfl

theorem all_congr_mem {α : Type} {f g : α → Bool} (l : List α)
    (h : ∀ x ∈ l, f x = g x) : l.all f = l.all g := by
  induction l with
  | nil => rfl
  | cons a l ih =>
    simp only [List.all_cons, h a (List.mem_cons_self a l)]
    rw [ih fun x hx => h x (List.mem_cons_of_mem a hx)]

theorem validateArgs_map_readNormal (fiberId : List Int) (radius : List Int)
    (oversample : List Rat) (rows : List (List Rat)) (profiles : List MaskedMatrix)
    (norm : List (List Rat)) :
    validateArgs fiberId radius oversample rows (profiles.map readNormal) norm =
      validateArgs fiberId radius oversample rows profiles norm := by
  have h1 : (rows.zip (profiles.map readNormal)).all
        (fun q => q.1.length == q.2.data.length) =
      (rows.zip profiles).all (fun q => q.1.length == q.2.data.length) := by
    rw [List.zip_map_right, List.all_map]
    apply all_congr_mem
    intro q _
    simp [Function.comp, readNormal_data]
  have h2 : ((profiles.map readNormal).zip (radius.zip oversample)).all
        (fun q => q.1.data.all fun row => (row.length : Int) == profileWidth q.2.1 q.2.2) =
      (profiles.zip (radius.zip oversample)).all
        (fun q => q.1.data.all fun row => (row.length : Int) == profileWidth q.2.1 q.2.2) := by
    rw [List.zip_map_left, List.all_map]
    apply all_congr_mem
    intro q _
    simp [Function.comp, readNormal_data]
  unfold validateArgs
  rw [List.length_map, h1, h2]

theorem blockIds_congr {α β : Type} (ids : List Int) (xs : List (List α))
    (ys : List (List β)) (h : List.Forall₂ (fun a b => a.length = b.length) xs ys) :
    blockIds (ids.zip xs) = blockIds (ids.zip ys) := by
  induction h generalizing ids with
  | nil => cases ids <;> rfl
  | cons hxy htl ih =>
    cases ids with
    | nil => rfl
    | cons i ids =>
      rw [List.zip_cons_cons, List.zip_cons_cons, blockIds_cons, blockIds_cons, ih]
      congr 1
      simp only [List.map_const']
      rw [hxy]

/-- Evaluation of the read of one fiber once the three selections are known:
with an explicit mask shaped like the data, a nonempty fiber reconstructs
exactly, and an empty fiber reconstructs with `mask=False`. -/
theorem readFiber_components (f : FitsFile) (t : Int) (rowsSel : List Rat)
    (mdata : List (List Rat)) (mm : List (List Bool)) (w : Nat)
    (h1 : selectBy f.profFiberId f.profRows t = rowsSel)
    (h2 : selectBy f.profFiberId f.profProfiles t = mdata)
    (h3 : selectBy f.profFiberId f.profMasks t = mm)
    (hsh : mm.map List.length = mdata.map List.length)
    (hw : ∀ row ∈ mdata, row.length = w) :
    readFiber f t = .ok (rowsSel, readNormal ⟨mdata, some mm⟩) := by
  unfold readFiber
  rw [h1, h2, h3]
  dsimp only
  cases mdata with
  | nil =>
    have hmm0 : mm = [] := by
      have := congrArg List.length hsh
      simp only [List.length_map, List.length_nil] at this
      exact List.length_eq_zero.mp this
    subst hmm0
    rfl
  | cons d ds =>
    have hlen : mm.length = ds.length + 1 := by
      have := congrArg List.length hsh
      simpa using this
    have hrect : npArray2D (d :: ds) = .ok (d :: ds) := npArray2D_ok_of_width _ w hw
    have hrectm : npArray2D mm = .ok mm := by
      apply npArray2D_ok_of_width mm w
      intro r hr
      obtain ⟨j, hj, hrj⟩ := List.getElem_of_mem hr
      have hjm : j < (List.map List.length mm).length := by
        simpa using hj
      have hjj := List.getElem_of_eq hsh hjm
      have hjd : j < (d :: ds).length := by
        have := congrArg List.length hsh
        simp only [List.length_map] at this
        omega
      rw [List.getElem_map, List.getElem_map] at hjj
      rw [← hrj, hjj]
      exact hw _ (List.getElem_mem hjd)
    rw [hrect]
    show Except.bind (Except.ok (d :: ds)) _ = _
    rw [show ∀ (g : List (List Rat) → Except PyError (List Rat × MaskedMatrix)),
      Except.bind (Except.ok (d :: ds)) g = g (d :: ds) from fun g => rfl]
    rw [if_pos (by omega : mm.length > 0), hrectm]
    rw [show Except.map some (Except.ok mm) = Except.ok (some mm) from rfl]
    show Except.bind (Except.ok (some mm)) _ = _
    rw [show ∀ (g : Option (List (List Bool)) → Except PyError (List Rat × MaskedMatrix)),
      Except.bind (Except.ok (some mm)) g = g (some mm) from fun g => rfl]
    rw [npMaskedArray_same_shape _ _ hsh]
    show Except.ok _ = _
    rw [readNormal, if_neg (by simp)]

/-- Core round-trip lemma: decoding the encoding of a validated object with
pairwise-distinct `fiberId` and explicit shape-true masks succeeds, and
returns the object with `readNormal`-normalised profiles and the emitted
primary header as metadata. -/
theorem readImpl_writeImpl (p : PfsFiberProfilesData) (hval : p.validateOk = true)
    (hnd : p.fiberId.Nodup) (hmask : explicitMasksOk p = true) :
    readImpl (writeImpl p) p.identity = .ok
      ⟨p.identity, p.fiberId, p.radius, p.oversample, p.rows,
        p.profiles.map readNormal, p.norm,
        headerSet (astropyHeaderFromDict p.metadata) "OBSTYPE" (.s "fiberProfiles")⟩ := by
  classical
  have hv := hval
  unfold PfsFiberProfilesData.validateOk validateArgs at hv
  simp only [Bool.and_eq_true, beq_iff_eq, List.all_eq_true] at hv
  obtain ⟨⟨⟨⟨⟨⟨hrad, hsamp⟩, hrows⟩, hprofl⟩, hlen2⟩, hwidth⟩, hnorm⟩ := hv
  unfold explicitMasksOk at hmask
  have hm : ∀ m ∈ p.profiles, ∃ mm, m.mask = some mm ∧
      mm.map List.length = m.data.map List.length := by
    intro m hmem
    have hx := List.all_eq_true.mp hmask m hmem
    cases hmm : m.mask with
    | none => rw [hmm] at hx; simp at hx
    | some mm =>
      rw [hmm] at hx
      simp only [beq_iff_eq] at hx
      exact ⟨mm, rfl, hx⟩
  have hmaskLen : ∀ m ∈ p.profiles, (maskRowsOf m).length = m.data.length := by
    intro m hmem
    obtain ⟨mm, hsome, hsh⟩ := hm m hmem
    have := congrArg List.length hsh
    simp only [List.length_map] at this
    simp [maskRowsOf, maskCellsOf, hsome, this]
  have hlen2i : ∀ i (hi : i < p.fiberId.length),
      (p.rows[i]).length = (p.profiles[i]).data.length := by
    intro i hi
    have h1 : i < p.rows.length := by omega
    have h2 : i < p.profiles.length := by omega
    have hz : i < (p.rows.zip p.profiles).length := by
      rw [List.length_zip]; omega
    have hmem := List.getElem_mem hz
    rw [List.getElem_zip] at hmem
    exact hlen2 _ hmem
  have hwidthi : ∀ i (hi : i < p.fiberId.length), ∀ row ∈ (p.profiles[i]).data,
      (row.length : Int) = profileWidth (p.radius[i]) (p.oversample[i]) := by
    intro i hi row hrow
    have hz : i < (p.profiles.zip (p.radius.zip p.oversample)).length := by
      rw [List.length_zip, List.length_zip]; omega
    have hmem := List.getElem_mem hz
    rw [List.getElem_zip, List.getElem_zip] at hmem
    exact hwidth _ hmem row hrow
  have hwNat : ∀ i (hi : i < p.fiberId.length), ∀ row ∈ (p.profiles[i]).data,
      row.length = (profileWidth (p.radius[i]) (p.oversample[i])).toNat := by
    intro i hi row hrow
    have := hwidthi i hi row hrow
    omega
  -- the PROFILES columns of the written file, blockwise
  have hF2data : List.Forall₂ (fun (a : List Rat) (b : List (List Rat)) => a.length = b.length)
      p.rows (p.profiles.map MaskedMatrix.data) := by
    rw [List.forall₂_iff_get]
    constructor
    · simp only [List.length_map]; omega
    · intro i h1 h2
      simp only [List.get_eq_getElem, List.getElem_map]
      exact hlen2i i (by omega)
  have hF2mask : List.Forall₂ (fun (a : List Rat) (b : List (List Bool)) => a.length = b.length)
      p.rows (p.profiles.map maskRowsOf) := by
    rw [List.forall₂_iff_get]
    constructor
    · simp only [List.length_map]; omega
    · intro i h1 h2
      simp only [List.get_eq_getElem, List.getElem_map]
      have h2p : i < p.profiles.length := by simp only [List.length_map] at h2; omega
      rw [hlen2i i (by omega)]
      exact (hmaskLen _ (List.getElem_mem h2p)).symm
  have hKdata : blockIds (p.fiberId.zip p.rows) =
      blockIds (p.fiberId.zip (p.profiles.map MaskedMatrix.data)) :=
    blockIds_congr _ _ _ hF2data
  have hKmask : blockIds (p.fiberId.zip p.rows) =
      blockIds (p.fiberId.zip (p.profiles.map maskRowsOf)) :=
    blockIds_congr _ _ _ hF2mask
  have hVrows : (writeImpl p).profRows = blockVals (p.fiberId.zip p.rows) := by
    show p.rows.flatten = _
    rw [blockVals, List.map_snd_zip _ _ (le_of_eq hrows)]
  have hVdata : (writeImpl p).profProfiles =
      blockVals (p.fiberId.zip (p.profiles.map MaskedMatrix.data)) := by
    show (p.profiles.map MaskedMatrix.data).flatten = _
    rw [blockVals, List.map_snd_zip _ _ (by simp only [List.length_map]; omega)]
  have hVmask : (writeImpl p).profMasks =
      blockVals (p.fiberId.zip (p.profiles.map maskRowsOf)) := by
    show (p.profiles.map maskRowsOf).flatten = _
    rw [blockVals, List.map_snd_zip _ _ (by simp only [List.length_map]; omega)]
  -- the three selections recover the block of each fiber
  have hndRows : ((p.fiberId.zip p.rows).map Prod.fst).Nodup := by
    rw [List.map_fst_zip _ _ (le_of_eq hrows.symm)]
    exact hnd
  have hndData : ((p.fiberId.zip (p.profiles.map MaskedMatrix.data)).map Prod.fst).Nodup := by
    rw [List.map_fst_zip _ _ (by simp only [List.length_map]; omega)]
    exact hnd
  have hndMask : ((p.fiberId.zip (p.profiles.map maskRowsOf)).map Prod.fst).Nodup := by
    rw [List.map_fst_zip _ _ (by simp only [List.length_map]; omega)]
    exact hnd
  have S1 := selectBy_blocks (p.fiberId.zip p.rows) hndRows
  have S2 := selectBy_blocks (p.fiberId.zip (p.profiles.map MaskedMatrix.data)) hndData
  have S3 := selectBy_blocks (p.fiberId.zip (p.profiles.map maskRowsOf)) hndMask
  have hS1i : ∀ i (hi : i < p.fiberId.length),
      selectBy (blockIds (p.fiberId.zip p.rows)) (blockVals (p.fiberId.zip p.rows))
        (p.fiberId[i]) = p.rows[i] := by
    intro i hi
    have hz : i < ((p.fiberId.zip p.rows).map
        (fun pr => selectBy (blockIds (p.fiberId.zip p.rows))
          (blockVals (p.fiberId.zip p.rows)) pr.1)).length := by
      rw [List.length_map, List.length_zip]; omega
    have h1 := List.getElem_of_eq S1 hz
    rw [List.getElem_map, List.getElem_map, List.getElem_zip] at h1
    exact h1
  have hS2i : ∀ i (hi : i < p.fiberId.length),
      selectBy (blockIds (p.fiberId.zip p.rows))
        (blockVals (p.fiberId.zip (p.profiles.map MaskedMatrix.data)))
        (p.fiberId[i]) = (p.profiles[i]).data := by
    intro i hi
    have hz : i < ((p.fiberId.zip (p.profiles.map MaskedMatrix.data)).map
        (fun pr => selectBy (blockIds (p.fiberId.zip (p.profiles.map MaskedMatrix.data)))
          (blockVals (p.fiberId.zip (p.profiles.map MaskedMatrix.data))) pr.1)).length := by
      rw [List.length_map, List.length_zip, List.length_map]; omega
    have h1 := List.getElem_of_eq S2 hz
    rw [List.getElem_map, List.getElem_map, List.getElem_zip] at h1
    rw [hKdata]
    simpa [List.getElem_map] using h1
  have hS3i : ∀ i (hi : i < p.fiberId.length),
      selectBy (blockIds (p.fiberId.zip p.rows))
        (blockVals (p.fiberId.zip (p.profiles.map maskRowsOf)))
        (p.fiberId[i]) = maskRowsOf (p.profiles[i]) := by
    intro i hi
    have hz : i < ((p.fiberId.zip (p.profiles.map maskRowsOf)).map
        (fun pr => selectBy (blockIds (p.fiberId.zip (p.profiles.map maskRowsOf)))
          (blockVals (p.fiberId.zip (p.profiles.map maskRowsOf))) pr.1)).length := by
      rw [List.length_map, List.length_zip, List.length_map]; omega
    have h1 := List.getElem_of_eq S3 hz
    rw [List.getElem_map, List.getElem_map, List.getElem_zip] at h1
    rw [hKmask]
    simpa [List.getElem_map] using h1
  -- each fiber reads back
  have hFiber : ∀ i (hi : i < p.fiberId.length),
      readFiber (writeImpl p) (p.fiberId[i]) =
        .ok (p.rows[i], readNormal (p.profiles[i])) := by
    intro i hi
    have hmemP : p.profiles[i] ∈ p.profiles := List.getElem_mem (by omega)
    obtain ⟨mm, hsome, hsh⟩ := hm _ hmemP
    have hmr : maskRowsOf (p.profiles[i]) = mm := by
      simp only [maskRowsOf, maskCellsOf, hsome, List.map_map]
      rw [show plRow ∘ MaskCell.row = id from rfl, List.map_id]
    have heta : (⟨(p.profiles[i]).data, some mm⟩ : MaskedMatrix) =
        p.profiles[i] := by
      rw [← hsome]
    have hr1 : selectBy (writeImpl p).profFiberId (writeImpl p).profRows
        (p.fiberId[i]) = p.rows[i] := by
      rw [show (writeImpl p).profFiberId = blockIds (p.fiberId.zip p.rows) from rfl,
        hVrows]
      exact hS1i i hi
    have hr2 : selectBy (writeImpl p).profFiberId (writeImpl p).profProfiles
        (p.fiberId[i]) = (p.profiles[i]).data := by
      rw [show (writeImpl p).profFiberId = blockIds (p.fiberId.zip p.rows) from rfl,
        hVdata]
      exact hS2i i hi
    have hr3 : selectBy (writeImpl p).profFiberId (writeImpl p).profMasks
        (p.fiberId[i]) = mm := by
      rw [show (writeImpl p).profFiberId = blockIds (p.fiberId.zip p.rows) from rfl,
        hVmask, hS3i i hi]
      exact hmr
    have := readFiber_components (writeImpl p) (p.fiberId[i])
      (p.rows[i]) ((p.profiles[i]).data) mm
      ((profileWidth (p.radius[i]) (p.oversample[i])).toNat)
      hr1 hr2 hr3 hsh (hwNat i hi)
    rw [this, heta]
  -- assemble the mapM and the constructor
  have hF2 : List.Forall₂ (fun t r => readFiber (writeImpl p) t = .ok r)
      p.fiberId (p.rows.zip (p.profiles.map readNormal)) := by
    rw [List.forall₂_iff_get]
    constructor
    · rw [List.length_zip, List.length_map]; omega
    · intro i h1 h2
      simp only [List.get_eq_getElem, List.getElem_zip, List.getElem_map]
      exact hFiber i h1
  have hMapM : (writeImpl p).fibFiberId.mapM (fun t => readFiber (writeImpl p) t) =
      .ok (p.rows.zip (p.profiles.map readNormal)) := by
    show p.fiberId.mapM _ = _
    exact mapM_ok_of_forall₂ hF2
  unfold readImpl
  rw [hMapM]
  show mkPfsFiberProfiles p.identity p.fiberId p.radius p.oversample
      ((p.rows.zip (p.profiles.map readNormal)).map Prod.fst)
      ((p.rows.zip (p.profiles.map readNormal)).map Prod.snd) p.norm
      (astropyHeaderToDict (writeImpl p).header) = _
  rw [List.map_fst_zip _ _ (by rw [List.length_map]; omega),
    List.map_snd_zip _ _ (by rw [List.length_map]; omega)]
  unfold mkPfsFiberProfiles
  rw [if_pos (by
    rw [validateArgs_map_readNormal]
    exact hval)]
  rfl

theorem rows_data_length_eq (p : PfsFiberProfilesData)
    (hlen2 : ∀ x ∈ p.rows.zip p.profiles, x.1.length = x.2.data.length)
    (hrows : p.rows.length = p.fiberId.length)
    (hprofl : p.profiles.length = p.fiberId.length)
    (i : Nat) (hi : i < p.fiberId.length) :
    (p.rows[i]).length = (p.profiles[i]).data.length := by
  have hz : i < (p.rows.zip p.profiles).length := by rw [List.length_zip]; omega
  have hmem := List.getElem_mem hz
  rw [List.getElem_zip] at hmem
  exact hlen2 _ hmem

theorem ok_bind {α β : Type} (a : α) (g : α → Except PyError β) :
    ((Except.ok a : Except PyError α) >>= g) = g a := rfl

theorem err_bind {α β : Type} (e : PyError) (g : α → Except PyError β) :
    ((Except.error e : Except PyError α) >>= g) = Except.error e := rfl

theorem npMaskedArray_ok_data {dat : List (List Rat)} {mask : Option (List (List Bool))}
    {mat : MaskedMatrix} (h : npMaskedArray dat mask = .ok mat) : mat.data = dat := by
  unfold npMaskedArray at h
  cases mask with
  | none => cases h; rfl
  | some mm =>
    dsimp only at h
    split at h
    · cases h; rfl
    · split at h
      · cases h; rfl
      · split at h
        · cases h; rfl
        · cases h

theorem readFiber_ok_inv (f : FitsFile) (t : Int) (r : List Rat × MaskedMatrix)
    (h : readFiber f t = .ok r) :
    r.1 = selectBy f.profFiberId f.profRows t ∧
    r.2.data = selectBy f.profFiberId f.profProfiles t := by
  unfold readFiber at h
  dsimp only at h
  cases hdat : npArray2D (selectBy f.profFiberId f.profProfiles t) with
  | error e => rw [hdat] at h; cases h
  | ok dat =>
    have hdd : dat = selectBy f.profFiberId f.profProfiles t := npArray2D_ok_inv hdat
    rw [hdat, ok_bind] at h
    by_cases hc : (selectBy f.profFiberId f.profMasks t).length > 0
    · rw [if_pos hc] at h
      cases hmsk : npArray2D (selectBy f.profFiberId f.profMasks t) with
      | error e => rw [hmsk] at h; cases h
      | ok mrows =>
        rw [hmsk] at h
        rw [show Except.map some (Except.ok mrows) = Except.ok (some mrows) from rfl,
          ok_bind] at h
        cases hmat : npMaskedArray dat (some mrows) with
        | error e => rw [hmat] at h; cases h
        | ok mat =>
          rw [hmat] at h
          cases h
          exact ⟨rfl, hdd ▸ npMaskedArray_ok_data hmat⟩
    · rw [if_neg hc] at h
      rw [ok_bind] at h
      cases hmat : npMaskedArray dat none with
      | error e => rw [hmat] at h; cases h
      | ok mat =>
        rw [hmat] at h
        cases h
        exact ⟨rfl, hdd ▸ npMaskedArray_ok_data hmat⟩

theorem mem_blockIds {α : Type} {x : Int} {pairs : List (Int × List α)}
    (h : x ∈ blockIds pairs) : ∃ pr ∈ pairs, x = pr.1 ∧ pr.2 ≠ [] := by
  unfold blockIds at h
  rw [List.mem_flatten] at h
  obtain ⟨blk, hblk, hx⟩ := h
  rw [List.mem_map] at hblk
  obtain ⟨pr, hpr, rfl⟩ := hblk
  rw [List.mem_map] at hx
  obtain ⟨a, ha, hax⟩ := hx
  exact ⟨pr, hpr, hax.symm, fun he => by rw [he] at ha; cases ha⟩

/-- Inversion of a successful `readImpl`: the decoded object is built from
the per-fiber selections and the `FIBERS` columns. -/
theorem readImpl_ok_inv (f : FitsFile) (identity : CalibIdentity)
    (q : PfsFiberProfilesData) (h : readImpl f identity = .ok q) :
    ∃ fibers, f.fibFiberId.mapM (fun t => readFiber f t) = .ok fibers ∧
      q.rows = fibers.map Prod.fst ∧ q.profiles = fibers.map Prod.snd := by
  unfold readImpl at h
  dsimp only at h
  cases hmapm : f.fibFiberId.mapM (fun t => readFiber f t) with
  | error e => rw [hmapm] at h; cases h
  | ok fibers =>
    rw [hmapm, ok_bind] at h
    unfold mkPfsFiberProfiles at h
    split at h
    · cases h
      exact ⟨fibers, rfl, rfl, rfl⟩
    · cases h

/-- Claim C1 amended: For every object passing construction-time validation
whose `fiberId` entries are pairwise distinct and whose profiles carry
explicit masks shaped like their data, decoding the encoding succeeds and
yields an object with identical identity, fiberId, radius, oversample, rows
and norm, with profile-wise equal data and effective masks (an absent mask
and an all-empty explicit mask both meaning "no masked entries"), and whose
metadata is the original metadata with keys uppercased and `OBSTYPE` set to
`"fiberProfiles"`. -/
theorem c1_roundtrip_amended (p : PfsFiberProfilesData) (hval : p.validateOk = true)
    (hnd : p.fiberId.Nodup) (hmask : explicitMasksOk p = true) :
    ∃ q, readImpl (writeImpl p) p.identity = .ok q ∧
      q.identity = p.identity ∧ q.fiberId = p.fiberId ∧ q.radius = p.radius ∧
      q.oversample = p.oversample ∧ q.rows = p.rows ∧ q.norm = p.norm ∧
      List.Forall₂ MaskedMatrix.Equiv q.profiles p.profiles ∧
      q.metadata = headerSet (astropyHeaderFromDict p.metadata) "OBSTYPE"
        (.s "fiberProfiles") := by
  refine ⟨_, readImpl_writeImpl p hval hnd hmask, rfl, rfl, rfl, rfl, rfl, rfl, ?_, rfl⟩
  rw [List.forall₂_map_left_iff, List.forall₂_same]
  intro m hmem
  unfold explicitMasksOk at hmask
  have hx := List.all_eq_true.mp hmask m hmem
  cases hmm : m.mask with
  | none => rw [hmm] at hx; simp at hx
  | some mm =>
    rw [hmm] at hx
    simp only [beq_iff_eq] at hx
    by_cases hd : m.data.isEmpty
    · have hdata : m.data = [] := by simpa [List.isEmpty_iff] using hd
      have hmm0 : mm = [] := by
        have := congrArg List.length hx
        simp only [List.length_map, hdata, List.length_nil] at this
        exact List.length_eq_zero.mp this
      refine ⟨readNormal_data m, ?_⟩
      rw [show readNormal m = ⟨m.data, none⟩ from by rw [readNormal, if_pos hd]]
      simp [MaskedMatrix.effMask, hdata, hmm, hmm0]
    · rw [show readNormal m = m from by rw [readNormal, if_neg hd]]
      exact ⟨rfl, rfl⟩

/-- Witness for C1 (amended) at the concrete `pGood` (two fibers, one of
them empty, explicit masks, distinct ids). -/
theorem c1_roundtrip_amended_witness :
    pGood.validateOk = true ∧ pGood.fiberId.Nodup ∧ explicitMasksOk pGood = true ∧
    (∃ q, readImpl (writeImpl pGood) pGood.identity = .ok q ∧
      q.identity = pGood.identity ∧ q.fiberId = pGood.fiberId ∧
      q.radius = pGood.radius ∧ q.oversample = pGood.oversample ∧
      q.rows = pGood.rows ∧ q.norm = pGood.norm ∧
      List.Forall₂ MaskedMatrix.Equiv q.profiles pGood.profiles ∧
      q.metadata = headerSet (astropyHeaderFromDict pGood.metadata) "OBSTYPE"
        (.s "fiberProfiles")) :=
  ⟨by decide, by decide, by decide,
    c1_roundtrip_amended pGood (by decide) (by decide) (by decide)⟩

/-- Claim C6: On read, fiber `i` is reconstructed by selecting the `PROFILES`
rows whose fiberId equals `fiberId[i]`, in their stored order (this holds
for every successfully decoded file, for both the row positions and the
profile data); and for a validated object with distinct fiberIds and
explicit masks, a fiber with zero profiles emits no `PROFILES` rows on
write and reads back with empty rows and profile data. -/
theorem c6_selection_semantics :
    (∀ (f : FitsFile) (identity : CalibIdentity) (q : PfsFiberProfilesData),
      readImpl f identity = .ok q →
        q.rows = f.fibFiberId.map (fun t => selectBy f.profFiberId f.profRows t) ∧
        q.profiles.map MaskedMatrix.data =
          f.fibFiberId.map (fun t => selectBy f.profFiberId f.profProfiles t)) ∧
    (∀ (p : PfsFiberProfilesData), p.validateOk = true → p.fiberId.Nodup →
      explicitMasksOk p = true → ∀ i, i < p.fiberId.length →
      p.rows.getD i [] = [] →
        ((writeImpl p).profFiberId.count (p.fiberId.getD i 0) = 0 ∧
        ∃ q, readImpl (writeImpl p) p.identity = .ok q ∧
          q.rows.getD i [] = [] ∧ (q.profiles.getD i ⟨[], none⟩).data = [])) := by
  constructor
  · intro f identity q h
    obtain ⟨fibers, hmapm, hqrows, hqprof⟩ := readImpl_ok_inv f identity q h
    have hF2 := forall₂_of_mapM_ok _ _ hmapm
    have hlen := hF2.length_eq
    constructor
    · rw [hqrows]
      apply List.ext_getElem
      · rw [List.length_map, List.length_map]; omega
      · intro n h1 h2
        rw [List.getElem_map, List.getElem_map]
        have hpt := (List.forall₂_iff_get.mp hF2).2 n (by
          simp only [List.length_map] at h2; omega) (by
          simp only [List.length_map] at h1; omega)
        exact (readFiber_ok_inv f _ _ hpt).1
    · rw [hqprof]
      apply List.ext_getElem
      · rw [List.length_map, List.length_map, List.length_map]; omega
      · intro n h1 h2
        rw [List.getElem_map, List.getElem_map, List.getElem_map]
        have hpt := (List.forall₂_iff_get.mp hF2).2 n (by
          simp only [List.length_map] at h2; omega) (by
          simp only [List.length_map] at h1; omega)
        exact (readFiber_ok_inv f _ _ hpt).2
  · intro p hval hnd hmask i hi hempty
    have hv := hval
    unfold PfsFiberProfilesData.validateOk validateArgs at hv
    simp only [Bool.and_eq_true, beq_iff_eq, List.all_eq_true] at hv
    obtain ⟨⟨⟨⟨⟨⟨hrad, hsamp⟩, hrows⟩, hprofl⟩, hlen2⟩, hwidth⟩, hnorm⟩ := hv
    have hiR : i < p.rows.length := by omega
    have hiP : i < p.profiles.length := by omega
    have hemptyE : p.rows[i] = [] := by
      rw [List.getD_eq_getElem?_getD, List.getElem?_eq_getElem hiR] at hempty
      simpa using hempty
    have hgetD : p.fiberId.getD i 0 = p.fiberId[i] := by
      rw [List.getD_eq_getElem?_getD, List.getElem?_eq_getElem hi]
      rfl
    constructor
    · rw [hgetD, List.count_eq_zero]
      intro hmem
      obtain ⟨pr, hpr, hprx, hprne⟩ :=
        @mem_blockIds _ (p.fiberId[i]) (p.fiberId.zip p.rows) hmem
      obtain ⟨j, hj, hjeq⟩ := List.getElem_of_mem hpr
      have hjf : j < p.fiberId.length := by
        rw [List.length_zip] at hj; omega
      rw [List.getElem_zip] at hjeq
      have hj1 : p.fiberId[j] = pr.1 := by rw [← hjeq]
      have hj2 : p.rows[j] = pr.2 := by rw [← hjeq]
      have hij : j = i := by
        have : p.fiberId[j] = p.fiberId[i] := by rw [hj1, ← hprx]
        exact (List.Nodup.getElem_inj_iff hnd).mp this
      apply hprne
      subst hij
      rw [← hj2]
      exact hemptyE
    · refine ⟨_, readImpl_writeImpl p hval hnd hmask, ?_, ?_⟩
      · simpa [List.getD_eq_getElem?_getD, List.getElem?_eq_getElem hiR]
          using hemptyE
      · have hiM : i < (p.profiles.map readNormal).length := by
          rw [List.length_map]; omega
        have hdata : (p.profiles[i]).data = [] := by
          have hld := rows_data_length_eq p hlen2 hrows hprofl i hi
          have hz : (p.profiles[i]).data.length = 0 := by
            rw [← hld, hemptyE]
            rfl
          exact List.length_eq_zero.mp hz
        simp only [List.getD_eq_getElem?_getD, List.getElem?_eq_getElem hiM,
          Option.getD_some, List.getElem_map]
        rw [readNormal_data]
        exact hdata

/-- Witness for C6 at `pGood`, whose second fiber (index 1) has no
profiles. -/
theorem c6_selection_semantics_witness :
    pGood.validateOk = true ∧ pGood.fiberId.Nodup ∧ explicitMasksOk pGood = true ∧
    1 < pGood.fiberId.length ∧ pGood.rows.getD 1 [] = [] ∧
    ((writeImpl pGood).profFiberId.count (pGood.fiberId.getD 1 0) = 0 ∧
      ∃ q, readImpl (writeImpl pGood) pGood.identity = .ok q ∧
        q.rows.getD 1 [] = [] ∧ (q.profiles.getD 1 ⟨[], none⟩).data = []) :=
  ⟨by decide, by decide, by decide, by decide, by decide,
    c6_selection_semantics.2 pGood (by decide) (by decide) (by decide) 1
      (by decide) (by decide)⟩

/-! ## Rendering and parsing of numeric fields -/

theorem digChar_isDigit (n : Nat) (h : n < 10) : (digChar n).isDigit = true := by
  interval_cases n <;> decide


theorem digitVal_digChar (n : Nat) (h : n < 10) : digitVal (digChar n) = n := by
  interval_cases n <;> decide

theorem digitsVal_foldl (r : List Char) (a : Nat) :
    List.foldl (fun a c => 10 * a + digitVal c) a r = a * 10 ^ r.length + digitsVal r := by
  induction r generalizing a with
  | nil => simp [digitsVal]
  | cons c r ih =>
    show List.foldl _ (10 * a + digitVal c) r = _
    rw [ih (10 * a + digitVal c)]
    have : digitsVal (c :: r) = digitVal c * 10 ^ r.length + digitsVal r := by
      show List.foldl _ (10 * 0 + digitVal c) r = _
      rw [ih (10 * 0 + digitVal c)]
      ring
    rw [this, List.length_cons]
    ring

theorem digitsVal_append (l r : List Char) :
    digitsVal (l ++ r) = digitsVal l * 10 ^ r.length + digitsVal r := by
  show List.foldl _ 0 (l ++ r) = _
  rw [List.foldl_append]
  exact digitsVal_foldl r _

theorem digitsVal_replicate_zero (k : Nat) : digitsVal (List.replicate k '0') = 0 := by
  induction k with
  | zero => rfl
  | succ k ih =>
    rw [List.replicate_succ]
    show List.foldl _ (10 * 0 + digitVal '0') _ = 0
    exact ih

theorem natDecAux_spec : ∀ fuel n, n < fuel →
    digitsVal (natBaseCharsAux 10 fuel n) = n ∧
    (∀ c ∈ natBaseCharsAux 10 fuel n, c.isDigit = true) := by
  intro fuel
  induction fuel with
  | zero => intro n h; omega
  | succ fuel ih =>
    intro n h
    simp only [natBaseCharsAux]
    by_cases h10 : n < 10
    · rw [if_pos h10]
      constructor
      · show 10 * 0 + digitVal (digChar n) = n
        rw [digitVal_digChar n h10]
        omega
      · intro c hc
        rw [List.mem_singleton] at hc
        rw [hc]
        exact digChar_isDigit n h10
    · rw [if_neg h10]
      have hdiv : n / 10 < fuel := by omega
      obtain ⟨ihv, ihd⟩ := ih (n / 10) hdiv
      constructor
      · rw [digitsVal_append, ihv]
        have : digitsVal [digChar (n % 10)] = n % 10 := by
          show 10 * 0 + digitVal (digChar (n % 10)) = n % 10
          rw [digitVal_digChar _ (by omega)]
          omega
        rw [this]
        simp only [List.length_cons, List.length_nil, pow_one]
        omega
      · intro c hc
        rw [List.mem_append] at hc
        rcases hc with hc | hc
        · exact ihd c hc
        · rw [List.mem_singleton] at hc
          rw [hc]
          exact digChar_isDigit _ (by omega)

theorem natDecAux_len_le (n : Nat) : ∀ k fuel, n < 10 ^ k → n < fuel → 1 ≤ k →
    (natBaseCharsAux 10 fuel n).length ≤ k := by
  induction n using Nat.strong_induction_on with
  | _ n ihn =>
    intro k fuel hk hf h1
    cases fuel with
    | zero => omega
    | succ fuel =>
      simp only [natBaseCharsAux]
      by_cases h10 : n < 10
      · rw [if_pos h10]
        simpa using h1
      · rw [if_neg h10]
        have hk2 : 2 ≤ k := by
          by_contra hlt
          push_neg at hlt
          interval_cases k
          simp only [pow_one] at hk
          omega
        have hpow : 10 ^ k = 10 ^ (k - 1) * 10 := by
          rw [← pow_succ]
          congr 1
          omega
        have hdivk : n / 10 < 10 ^ (k - 1) := by
          rw [hpow] at hk
          omega
        have := ihn (n / 10) (by omega) (k - 1) fuel hdivk (by omega) (by omega)
        rw [List.length_append]
        simp only [List.length_cons, List.length_nil]
        omega

theorem padZeros_length (w : Nat) (cs : List Char) (h : cs.length ≤ w) :
    (padZeros w cs).length = w := by
  simp [padZeros]
  omega

theorem padZeros_digits (w : Nat) (cs : List Char)
    (h : ∀ c ∈ cs, c.isDigit = true) : ∀ c ∈ padZeros w cs, c.isDigit = true := by
  intro c hc
  rw [padZeros, List.mem_append] at hc
  rcases hc with hc | hc
  · rw [List.eq_of_mem_replicate hc]
    decide
  · exact h c hc

theorem digitsVal_padZeros (w : Nat) (cs : List Char) :
    digitsVal (padZeros w cs) = digitsVal cs := by
  rw [padZeros, digitsVal_append, digitsVal_replicate_zero]
  ring

/-- Rendering percent-0wd of `0 ≤ n < 10^w` is exactly `w` digit characters whose decimal
value is `n`. -/
theorem fmtIntDec_spec (w : Nat) (n : Int) (h0 : 0 ≤ n) (hw : n.toNat < 10 ^ w)
    (h1 : 1 ≤ w) :
    (fmtIntDec w n).length = w ∧ (∀ c ∈ fmtIntDec w n, c.isDigit = true) ∧
    digitsVal (fmtIntDec w n) = n.toNat := by
  rw [fmtIntDec, if_neg (by omega)]
  unfold natDecChars
  obtain ⟨hv, hd⟩ := natDecAux_spec (n.toNat + 1) n.toNat (by omega)
  have hlen := natDecAux_len_le n.toNat w (n.toNat + 1) hw (by omega) h1
  exact ⟨padZeros_length _ _ hlen, padZeros_digits _ _ hd,
    by rw [digitsVal_padZeros, hv]⟩

/-! ## Parsing primitives -/

theorem stripLit_append (l cs : List Char) : stripLit l (l ++ cs) = some cs := by
  induction l with
  | nil => rfl
  | cons c l ih => simpa [stripLit] using ih

theorem stripLit_some {l cs r : List Char} (h : stripLit l cs = some r) :
    cs = l ++ r := by
  induction l generalizing cs with
  | nil => cases h; rfl
  | cons c l ih =>
    cases cs with
    | nil => cases h
    | cons a cs =>
      unfold stripLit at h
      by_cases hca : c = a
      · rw [if_pos hca] at h
        rw [ih h, hca]
        rfl
      · rw [if_neg hca] at h
        cases h

theorem takeCount_exact (p : Char → Bool) (ds rest : List Char)
    (hall : ∀ c ∈ ds, p c = true) :
    takeCount ds.length p (ds ++ rest) = some (ds, rest) := by
  induction ds with
  | nil => rfl
  | cons c cs ih =>
    show takeCount (cs.length + 1) p (c :: (cs ++ rest)) = _
    unfold takeCount
    rw [if_pos (hall c (List.mem_cons_self c cs)),
      ih fun d hd => hall d (List.mem_cons_of_mem c hd)]
    rfl

theorem takeCount_some {n : Nat} {p : Char → Bool} {cs g r : List Char}
    (h : takeCount n p cs = some (g, r)) : cs = g ++ r := by
  induction n generalizing cs g with
  | zero => cases h; rfl
  | succ n ih =>
    cases cs with
    | nil => cases h
    | cons c cs =>
      unfold takeCount at h
      by_cases hp : p c = true
      · rw [if_pos hp] at h
        cases hg : takeCount n p cs with
        | none => rw [hg] at h; cases h
        | some q =>
          rw [hg] at h
          cases h
          have := @ih cs q.1 (by rw [hg])
          rw [List.cons_append, ← this]
      · rw [if_neg hp] at h
        cases h

theorem greedySplit_none {α : Type} (sfx : List Char → Option α) (cs : List Char)
    (h : ∀ i, sfx (cs.drop i) = none) : greedySplit sfx cs = none := by
  unfold greedySplit
  rw [List.findSome?_eq_none_iff]
  intro x hx
  rw [List.mem_map] at hx
  obtain ⟨k, _, rfl⟩ := hx
  simp only [h]
  rfl

theorem basenameChars_subset (cs : List Char) :
    ∀ c ∈ basenameChars cs, c ∈ cs := by
  intro c hc
  unfold basenameChars at hc
  rw [List.mem_reverse] at hc
  have := (List.takeWhile_sublist (l := cs.reverse)
    (fun c => c != '/')).subset hc
  rwa [List.mem_reverse] at this

theorem basenameChars_no_slash (cs : List Char) (h : ∀ c ∈ cs, c ≠ '/') :
    basenameChars cs = cs := by
  unfold basenameChars
  rw [List.takeWhile_eq_self_iff.mpr (by
    intro a ha
    rw [List.mem_reverse] at ha
    simpa using h a ha)]
  exact List.reverse_reverse cs

theorem toList_mk (l : List Char) : (String.mk l).toList = l := rfl

theorem some_bind {α β : Type} (a : α) (g : α → Option β) :
    ((some a : Option α) >>= g) = g a := rfl

/-! ## Characters of rendered filenames -/

theorem natBaseCharsAux_mem (b : Nat) : ∀ fuel n, ∀ c ∈ natBaseCharsAux b fuel n,
    ∃ k, c = digChar k := by
  intro fuel
  induction fuel with
  | zero => intro n c hc; cases hc
  | succ fuel ih =>
    intro n c hc
    simp only [natBaseCharsAux] at hc
    by_cases hb : n < b
    · rw [if_pos hb, List.mem_singleton] at hc
      exact ⟨n, hc⟩
    · rw [if_neg hb, List.mem_append] at hc
      rcases hc with hc | hc
      · exact ih _ c hc
      · rw [List.mem_singleton] at hc
        exact ⟨n % b, hc⟩

theorem mem_fmtIntDec {w : Nat} {n : Int} {c : Char} (h : c ∈ fmtIntDec w n) :
    c = '-' ∨ c = '0' ∨ ∃ k, c = digChar k := by
  unfold fmtIntDec natDecChars padZeros at h
  split at h
  · rw [List.mem_cons] at h
    rcases h with h | h
    · exact Or.inl h
    · rw [List.mem_append] at h
      rcases h with h | h
      · exact Or.inr (Or.inl (List.eq_of_mem_replicate h))
      · exact Or.inr (Or.inr (natBaseCharsAux_mem 10 _ _ c h))
  · rw [List.mem_append] at h
    rcases h with h | h
    · exact Or.inr (Or.inl (List.eq_of_mem_replicate h))
    · exact Or.inr (Or.inr (natBaseCharsAux_mem 10 _ _ c h))

theorem mem_fmtIntHex {w : Nat} {n : Int} {c : Char} (h : c ∈ fmtIntHex w n) :
    c = '-' ∨ c = '0' ∨ ∃ k, c = digChar k := by
  unfold fmtIntHex natHexChars padZeros at h
  split at h
  · rw [List.mem_cons] at h
    rcases h with h | h
    · exact Or.inl h
    · rw [List.mem_append] at h
      rcases h with h | h
      · exact Or.inr (Or.inl (List.eq_of_mem_replicate h))
      · exact Or.inr (Or.inr (natBaseCharsAux_mem 16 _ _ c h))
  · rw [List.mem_append] at h
    rcases h with h | h
    · exact Or.inr (Or.inl (List.eq_of_mem_replicate h))
    · exact Or.inr (Or.inr (natBaseCharsAux_mem 16 _ _ c h))

theorem digChar_ne_x (k : Nat) : digChar k ≠ 'x' := by
  unfold digChar
  by_cases h1 : k < 10
  · rw [if_pos h1]
    interval_cases k <;> decide
  · rw [if_neg h1]
    by_cases h2 : k < 16
    · rw [if_pos h2]
      interval_cases k <;> decide
    · rw [if_neg h2]
      decide

theorem x_not_mem_fmtIntDec {w : Nat} {n : Int} : 'x' ∉ fmtIntDec w n := by
  intro h
  rcases mem_fmtIntDec h with h | h | ⟨k, h⟩
  · cases h
  · cases h
  · exact digChar_ne_x k h.symm

theorem x_not_mem_fmtIntHex {w : Nat} {n : Int} : 'x' ∉ fmtIntHex w n := by
  intro h
  rcases mem_fmtIntHex h with h | h | ⟨k, h⟩
  · cases h
  · cases h
  · exact digChar_ne_x k h.symm

theorem pfsReferenceFilename_no_x (id : PfsReferenceIdentity)
    (hp : 'x' ∉ id.patch.toList) : 'x' ∉ pfsReferenceFilenameChars id := by
  unfold pfsReferenceFilenameChars
  intro h
  simp only [List.mem_append, or_assoc] at h
  rcases h with h | h | h | h | h | h | h | h | h
  · exact absurd h (by decide)
  · exact x_not_mem_fmtIntDec h
  · exact absurd h (by decide)
  · exact x_not_mem_fmtIntDec h
  · exact absurd h (by decide)
  · exact hp h
  · exact absurd h (by decide)
  · exact x_not_mem_fmtIntHex h
  · exact absurd h (by decide)

theorem pfsSingleFilename_no_x (id : PfsSingleIdentity)
    (hp : 'x' ∉ id.patch.toList) : 'x' ∉ pfsSingleFilenameChars id := by
  unfold pfsSingleFilenameChars
  intro h
  simp only [List.mem_append, or_assoc] at h
  rcases h with h | h | h | h | h | h | h | h | h | h | h
  · exact absurd h (by decide)
  · exact x_not_mem_fmtIntDec h
  · exact absurd h (by decide)
  · exact x_not_mem_fmtIntDec h
  · exact absurd h (by decide)
  · exact hp h
  · exact absurd h (by decide)
  · exact x_not_mem_fmtIntHex h
  · exact absurd h (by decide)
  · exact x_not_mem_fmtIntDec h
  · exact absurd h (by decide)

theorem pfsObjectFilename_no_x (id : PfsObjectIdentity)
    (hp : 'x' ∉ id.patch.toList) : 'x' ∉ pfsObjectFilenameChars id := by
  unfold pfsObjectFilenameChars
  intro h
  simp only [List.mem_append, or_assoc] at h
  rcases h with h | h | h | h | h | h | h | h | h | h | h | h | h
  · exact absurd h (by decide)
  · exact x_not_mem_fmtIntDec h
  · exact absurd h (by decide)
  · exact x_not_mem_fmtIntDec h
  · exact absurd h (by decide)
  · exact hp h
  · exact absurd h (by decide)
  · exact x_not_mem_fmtIntHex h
  · exact absurd h (by decide)
  · exact x_not_mem_fmtIntDec h
  · exact absurd h (by decide)
  · exact x_not_mem_fmtIntHex h
  · exact absurd h (by decide)

/-! ## The hex suffix matchers need a literal `x` -/

theorem refSuffix_some_mem {r : List Char} {g : List Char}
    (h : refSuffix r = some g) : 'x' ∈ r := by
  unfold refSuffix at h
  cases h1 : stripLit "-0x".toList r with
  | none => rw [h1] at h; cases h
  | some r1 =>
    rw [stripLit_some h1]
    exact List.mem_append_left _ (by decide)

theorem singleSuffix_some_mem {r : List Char} {g : List Char × List Char}
    (h : singleSuffix r = some g) : 'x' ∈ r := by
  unfold singleSuffix at h
  cases h1 : stripLit "-0x".toList r with
  | none => rw [h1] at h; cases h
  | some r1 =>
    rw [stripLit_some h1]
    exact List.mem_append_left _ (by decide)

theorem objectSuffix_some_mem {r : List Char} {g : List Char × List Char × List Char}
    (h : objectSuffix r = some g) : 'x' ∈ r := by
  unfold objectSuffix at h
  cases h1 : stripLit "-0x".toList r with
  | none => rw [h1] at h; cases h
  | some r1 =>
    rw [stripLit_some h1]
    exact List.mem_append_left _ (by decide)

theorem greedySplit_none_of_no_x {α : Type} (sfx : List Char → Option α)
    (hs : ∀ r g, sfx r = some g → 'x' ∈ r) (cs : List Char) (hx : 'x' ∉ cs) :
    greedySplit sfx cs = none := by
  apply greedySplit_none
  intro i
  cases h : sfx (cs.drop i) with
  | none => rfl
  | some g => exact absurd (List.drop_subset i cs (hs _ _ h)) hx

/-- With no `x` in the input, the `Reference` regex cannot match: its
hex group requires a literal `x`. -/
theorem pfsReferenceMatch_none (cs : List Char) (hx : 'x' ∉ cs) :
    pfsReferenceMatch cs = none := by
  unfold pfsReferenceMatch
  cases h1 : stripLit "pfsReference-".toList cs with
  | none => rfl
  | some r1 =>
    rw [some_bind]
    have hx1 : 'x' ∉ r1 := fun hm => hx (stripLit_some h1 ▸ List.mem_append_right _ hm)
    cases h2 : takeCount 3 Char.isDigit r1 with
    | none => rfl
    | some g2 =>
      obtain ⟨ga, r2⟩ := g2
      rw [some_bind]
      dsimp only
      have hx2 : 'x' ∉ r2 := fun hm => hx1 (takeCount_some h2 ▸
        List.mem_append_right _ hm)
      cases h3 : stripLit "-".toList r2 with
      | none => rfl
      | some r3 =>
        rw [some_bind]
        have hx3 : 'x' ∉ r3 := fun hm => hx2 (stripLit_some h3 ▸
          List.mem_append_right _ hm)
        cases h4 : takeCount 5 Char.isDigit r3 with
        | none => rfl
        | some g4 =>
          obtain ⟨gb, r4⟩ := g4
          rw [some_bind]
          dsimp only
          have hx4 : 'x' ∉ r4 := fun hm => hx3 (takeCount_some h4 ▸
            List.mem_append_right _ hm)
          cases h5 : stripLit "-".toList r4 with
          | none => rfl
          | some r5 =>
            rw [some_bind]
            have hx5 : 'x' ∉ r5 := fun hm => hx4 (stripLit_some h5 ▸
              List.mem_append_right _ hm)
            rw [greedySplit_none_of_no_x refSuffix
              (fun r g h => refSuffix_some_mem h) r5 hx5]
            rfl

/-- With no `x` in the input, the `Single` regex cannot match: its
hex group requires a literal `x`. -/
theorem pfsSingleMatch_none (cs : List Char) (hx : 'x' ∉ cs) :
    pfsSingleMatch cs = none := by
  unfold pfsSingleMatch
  cases h1 : stripLit "pfsSingle-".toList cs with
  | none => rfl
  | some r1 =>
    rw [some_bind]
    have hx1 : 'x' ∉ r1 := fun hm => hx (stripLit_some h1 ▸ List.mem_append_right _ hm)
    cases h2 : takeCount 3 Char.isDigit r1 with
    | none => rfl
    | some g2 =>
      obtain ⟨ga, r2⟩ := g2
      rw [some_bind]
      dsimp only
      have hx2 : 'x' ∉ r2 := fun hm => hx1 (takeCount_some h2 ▸
        List.mem_append_right _ hm)
      cases h3 : stripLit "-".toList r2 with
      | none => rfl
      | some r3 =>
        rw [some_bind]
        have hx3 : 'x' ∉ r3 := fun hm => hx2 (stripLit_some h3 ▸
          List.mem_append_right _ hm)
        cases h4 : takeCount 5 Char.isDigit r3 with
        | none => rfl
        | some g4 =>
          obtain ⟨gb, r4⟩ := g4
          rw [some_bind]
          dsimp only
          have hx4 : 'x' ∉ r4 := fun hm => hx3 (takeCount_some h4 ▸
            List.mem_append_right _ hm)
          cases h5 : stripLit "-".toList r4 with
          | none => rfl
          | some r5 =>
            rw [some_bind]
            have hx5 : 'x' ∉ r5 := fun hm => hx4 (stripLit_some h5 ▸
              List.mem_append_right _ hm)
            rw [greedySplit_none_of_no_x singleSuffix
              (fun r g h => singleSuffix_some_mem h) r5 hx5]
            rfl

/-- With no `x` in the input, the `Object` regex cannot match: its
hex group requires a literal `x`. -/
theorem pfsObjectMatch_none (cs : List Char) (hx : 'x' ∉ cs) :
    pfsObjectMatch cs = none := by
  unfold pfsObjectMatch
  cases h1 : stripLit "pfsObject-".toList cs with
  | none => rfl
  | some r1 =>
    rw [some_bind]
    have hx1 : 'x' ∉ r1 := fun hm => hx (stripLit_some h1 ▸ List.mem_append_right _ hm)
    cases h2 : takeCount 3 Char.isDigit r1 with
    | none => rfl
    | some g2 =>
      obtain ⟨ga, r2⟩ := g2
      rw [some_bind]
      dsimp only
      have hx2 : 'x' ∉ r2 := fun hm => hx1 (takeCount_some h2 ▸
        List.mem_append_right _ hm)
      cases h3 : stripLit "-".toList r2 with
      | none => rfl
      | some r3 =>
        rw [some_bind]
        have hx3 : 'x' ∉ r3 := fun hm => hx2 (stripLit_some h3 ▸
          List.mem_append_right _ hm)
        cases h4 : takeCount 5 Char.isDigit r3 with
        | none => rfl
        | some g4 =>
          obtain ⟨gb, r4⟩ := g4
          rw [some_bind]
          dsimp only
          have hx4 : 'x' ∉ r4 := fun hm => hx3 (takeCount_some h4 ▸
            List.mem_append_right _ hm)
          cases h5 : stripLit "-".toList r4 with
          | none => rfl
          | some r5 =>
            rw [some_bind]
            have hx5 : 'x' ∉ r5 := fun hm => hx4 (stripLit_some h5 ▸
              List.mem_append_right _ hm)
            rw [greedySplit_none_of_no_x objectSuffix
              (fun r g h => objectSuffix_some_mem h) r5 hx5]
            rfl

theorem natDecChars_lt10 (t : Nat) (h : t < 10) : natDecChars t = [digChar t] := by
  unfold natDecChars
  simp only [natBaseCharsAux]
  rw [if_pos h]

theorem fmtIntDec1_digit (n : Int) (h0 : 0 ≤ n) (h9 : n < 10) :
    fmtIntDec 1 n = [digChar n.toNat] := by
  rw [fmtIntDec, if_neg (by omega), natDecChars_lt10 _ (by omega)]
  rfl

theorem intOfDigits_digChar (n : Int) (h0 : 0 ≤ n) (h9 : n < 10) :
    intOfDigits [digChar n.toNat] = n := by
  unfold intOfDigits
  have hv : digitsVal [digChar n.toNat] = n.toNat := by
    show 10 * 0 + digitVal (digChar n.toNat) = n.toNat
    rw [digitVal_digChar _ (by omega)]
    omega
  rw [hv]
  omega

theorem digChar_ne_slash (k : Nat) : digChar k ≠ '/' := by
  unfold digChar
  by_cases h1 : k < 10
  · rw [if_pos h1]
    interval_cases k <;> decide
  · rw [if_neg h1]
    by_cases h2 : k < 16
    · rw [if_pos h2]
      interval_cases k <;> decide
    · rw [if_neg h2]
      decide

theorem isDigit_ne_slash {c : Char} (h : c.isDigit = true) : c ≠ '/' := by
  intro he
  rw [he] at h
  exact absurd h (by decide)

/-- Matching the rendered `pfsArm` basename shape recovers the identity. -/
theorem pfsArm_parse_shape (expId spect : Int) (a : Char)
    (h0 : 0 ≤ expId) (h6 : expId < 1000000)
    (ha : (['b', 'r', 'n', 'm'].contains a) = true) (has : a ≠ '/')
    (hs0 : 0 ≤ spect) (hs9 : spect < 10) :
    PfsArm.parseFilename (String.mk ("pfsArm-".toList ++ (fmtIntDec 6 expId ++
      ("-".toList ++ (a :: (digChar spect.toNat :: ".fits".toList)))))) =
      .ok ⟨expId, String.mk [a], spect⟩ := by
  have hw : expId.toNat < 10 ^ 6 := by
    have h10 : (10 : Nat) ^ 6 = 1000000 := by norm_num
    omega
  obtain ⟨hlen6, hdig6, hval6⟩ := fmtIntDec_spec 6 expId h0 hw (by norm_num)
  unfold PfsArm.parseFilename
  rw [toList_mk, basenameChars_no_slash _ (by
    intro c hc
    simp only [List.mem_append, List.mem_cons, or_assoc] at hc
    rcases hc with hc | hc | hc | hc | hc | hc
    · exact fun he => absurd (he ▸ hc) (by decide)
    · exact isDigit_ne_slash (hdig6 c hc)
    · exact fun he => absurd (he ▸ hc) (by decide)
    · exact hc ▸ has
    · exact hc ▸ digChar_ne_slash spect.toNat
    · exact fun he => absurd (he ▸ hc) (by decide))]
  have hexp : intOfDigits (fmtIntDec 6 expId) = expId := by
    unfold intOfDigits
    rw [hval6]
    omega
  set ds := fmtIntDec 6 expId with hds
  have hmatch : pfsArmMatch ("pfsArm-".toList ++ (ds ++
      ("-".toList ++ (a :: (digChar spect.toNat :: ".fits".toList))))) =
      some ⟨ds, a, digChar spect.toNat⟩ := by
    unfold pfsArmMatch
    rw [stripLit_append, some_bind,
      show (6 : Nat) = ds.length from hlen6.symm,
      takeCount_exact Char.isDigit ds _ hdig6, some_bind]
    dsimp only
    rw [stripLit_append, some_bind]
    dsimp only
    rw [if_pos ha]
    rw [if_pos (digChar_isDigit spect.toNat (by omega))]
    rw [show stripLit ".fits".toList ".fits".toList = some ([] : List Char) from by
      simpa using stripLit_append ".fits".toList [], some_bind]
  rw [hmatch]
  dsimp only
  rw [hexp, intOfDigits_digChar spect hs0 hs9]

/-- Matching the rendered `pfsMerged` basename shape recovers the identity. -/
theorem pfsMerged_parse_shape (expId : Int) (h0 : 0 ≤ expId) (h6 : expId < 1000000) :
    PfsMerged.parseFilename (String.mk ("pfsMerged-".toList ++ (fmtIntDec 6 expId ++
      ".fits".toList))) = .ok ⟨expId⟩ := by
  have hw : expId.toNat < 10 ^ 6 := by
    have h10 : (10 : Nat) ^ 6 = 1000000 := by norm_num
    omega
  obtain ⟨hlen6, hdig6, hval6⟩ := fmtIntDec_spec 6 expId h0 hw (by norm_num)
  unfold PfsMerged.parseFilename
  rw [toList_mk, basenameChars_no_slash _ (by
    intro c hc
    simp only [List.mem_append, or_assoc] at hc
    rcases hc with hc | hc | hc
    · exact fun he => absurd (he ▸ hc) (by decide)
    · exact isDigit_ne_slash (hdig6 c hc)
    · exact fun he => absurd (he ▸ hc) (by decide))]
  have hexp : intOfDigits (fmtIntDec 6 expId) = expId := by
    unfold intOfDigits
    rw [hval6]
    omega
  set ds := fmtIntDec 6 expId with hds
  have hmatch : pfsMergedMatch ("pfsMerged-".toList ++ (ds ++ ".fits".toList)) =
      some ds := by
    unfold pfsMergedMatch
    rw [stripLit_append, some_bind,
      show (6 : Nat) = ds.length from hlen6.symm,
      takeCount_exact Char.isDigit ds _ hdig6, some_bind]
    dsimp only
    rw [show stripLit ".fits".toList ".fits".toList = some ([] : List Char) from by
        simpa using stripLit_append ".fits".toList [], some_bind]
  rw [hmatch]
  dsimp only
  rw [hexp]

/-- Round trip for a `PfsArm` identity with a one-character arm. -/
theorem pfsArm_roundtrip_char (expId spect : Int) (a : Char)
    (h0 : 0 ≤ expId) (h6 : expId < 1000000)
    (ha : (['b', 'r', 'n', 'm'].contains a) = true) (has : a ≠ '/')
    (hs0 : 0 ≤ spect) (hs9 : spect < 10) :
    PfsArm.parseFilename (PfsArm.getFilename ⟨expId, String.mk [a], spect⟩) =
      .ok ⟨expId, String.mk [a], spect⟩ := by
  have hrender : PfsArm.getFilename ⟨expId, String.mk [a], spect⟩ =
      String.mk ("pfsArm-".toList ++ (fmtIntDec 6 expId ++
        ("-".toList ++ (a :: (digChar spect.toNat :: ".fits".toList))))) := by
    unfold PfsArm.getFilename pfsArmFilenameChars
    rw [fmtIntDec1_digit spect hs0 hs9]
    congr 1
    simp [fmtStr, padSpaces, toList_mk, List.append_assoc]
  rw [hrender]
  exact pfsArm_parse_shape expId spect a h0 h6 ha has hs0 hs9

/-- Claim C2 amended: The filename round trip holds for `PfsArm` and
`PfsMerged` identities whose fields fit their declared widths.  It never
holds for `PfsReference`, `PfsSingle` or `PfsObject`: their formats render
`objId`/`expHash` as bare hex digits while their regexes demand a literal
`0x`, so parsing the rendered filename raises a parse error (shown for
every identity whose patch is free of the letter `x`; the non-patch parts
of a rendered name never contain one).  For `PfsFiberProfiles` even
rendering fails: `getFilename` calls the undefined `identity.getDict()`. -/
theorem c2_filename_roundtrip_amended :
    (∀ (expId spect : Int) (arm : String), 0 ≤ expId → expId < 1000000 →
      (arm = "b" ∨ arm = "r" ∨ arm = "n" ∨ arm = "m") → 0 ≤ spect → spect < 10 →
      PfsArm.parseFilename (PfsArm.getFilename ⟨expId, arm, spect⟩) =
        .ok ⟨expId, arm, spect⟩) ∧
    (∀ expId : Int, 0 ≤ expId → expId < 1000000 →
      PfsMerged.parseFilename (PfsMerged.getFilename ⟨expId⟩) = .ok ⟨expId⟩) ∧
    (∀ id : PfsReferenceIdentity, 'x' ∉ id.patch.toList →
      PfsReference.parseFilename (PfsReference.getFilename id) = .error .parseError) ∧
    (∀ id : PfsSingleIdentity, 'x' ∉ id.patch.toList →
      PfsSingle.parseFilename (PfsSingle.getFilename id) = .error .parseError) ∧
    (∀ id : PfsObjectIdentity, 'x' ∉ id.patch.toList →
      PfsObject.parseFilename (PfsObject.getFilename id) = .error .parseError) ∧
    (∀ id : CalibIdentity,
      PfsFiberProfiles.getFilenameE id = .error (.attributeError "getDict")) := by
  refine ⟨?_, ?_, ?_, ?_, ?_, fun id => rfl⟩
  · intro expId spect arm h0 h6 harm hs0 hs9
    rcases harm with rfl | rfl | rfl | rfl
    · exact pfsArm_roundtrip_char expId spect 'b' h0 h6 (by decide) (by decide) hs0 hs9
    · exact pfsArm_roundtrip_char expId spect 'r' h0 h6 (by decide) (by decide) hs0 hs9
    · exact pfsArm_roundtrip_char expId spect 'n' h0 h6 (by decide) (by decide) hs0 hs9
    · exact pfsArm_roundtrip_char expId spect 'm' h0 h6 (by decide) (by decide) hs0 hs9
  · intro expId h0 h6
    have hrender : PfsMerged.getFilename ⟨expId⟩ =
        String.mk ("pfsMerged-".toList ++ (fmtIntDec 6 expId ++ ".fits".toList)) := rfl
    rw [hrender]
    exact pfsMerged_parse_shape expId h0 h6
  · intro id hp
    have hb := pfsReferenceMatch_none
      (basenameChars (pfsReferenceFilenameChars id))
      (fun hm => pfsReferenceFilename_no_x id hp (basenameChars_subset _ _ hm))
    unfold PfsReference.parseFilename PfsReference.getFilename
    rw [toList_mk, hb]
  · intro id hp
    have hb := pfsSingleMatch_none
      (basenameChars (pfsSingleFilenameChars id))
      (fun hm => pfsSingleFilename_no_x id hp (basenameChars_subset _ _ hm))
    unfold PfsSingle.parseFilename PfsSingle.getFilename
    rw [toList_mk, hb]
  · intro id hp
    have hb := pfsObjectMatch_none
      (basenameChars (pfsObjectFilenameChars id))
      (fun hm => pfsObjectFilename_no_x id hp (basenameChars_subset _ _ hm))
    unfold PfsObject.parseFilename PfsObject.getFilename
    rw [toList_mk, hb]

/-- Witness for C2 (amended): a concrete in-range `PfsArm` identity
round-trips, and a concrete `PfsSingle` identity with canonical patch fails
to parse back. -/
theorem c2_filename_roundtrip_amended_witness :
    ((0 : Int) ≤ 1234 ∧ (1234 : Int) < 1000000 ∧
      ("r" = "b" ∨ "r" = "r" ∨ "r" = "n" ∨ "r" = "m") ∧
      (0 : Int) ≤ 2 ∧ (2 : Int) < 10 ∧
      PfsArm.parseFilename (PfsArm.getFilename ⟨1234, "r", 2⟩) =
        .ok ⟨1234, "r", 2⟩) ∧
    ('x' ∉ ("5,7" : String).toList ∧
      PfsSingle.parseFilename
        (PfsSingle.getFilename ⟨7, 321, "5,7", 3735928559, 4⟩) =
        .error .parseError) :=
  ⟨⟨by decide, by decide, by decide, by decide, by decide,
    c2_filename_roundtrip_amended.1 1234 2 "r" (by decide) (by decide)
      (by decide) (by decide) (by decide)⟩,
   ⟨by decide,
    (c2_filename_roundtrip_amended.2.2.2.1) ⟨7, 321, "5,7", 3735928559, 4⟩
      (by decide)⟩⟩

end PfsDatamodel
